import Mathlib

/-!
Verification development for the StarryGen block/prompt/labs engine.

The definitions below are a shallow embedding of the TypeScript sources:
JavaScript objects whose keys are iterated in insertion order are embedded
as ordered association lists, JS `undefined`/`null` as `Option`/`Val.vNull`,
and dynamically typed field values as the `Val` inductive.  Numbers that the
code only ever treats as integers are embedded as `Int`; continuous
quantities (pointer coordinates, noise) as `ℚ`.
-/

namespace StarryGen

/-- The `BlockType` string enum from `types.ts`. -/
inductive BlockType where
  | subject
  | background
  | mood
  | lighting
  | camera
  | style
  | postProcessing
  | fx
deriving DecidableEq, Repr

/-- The string value of each enum member (`types.ts`). -/
def BlockType.str : BlockType → String
  | .subject => "Subject"
  | .background => "Background & Atmosphere"
  | .mood => "Mood & Emotion"
  | .lighting => "Lighting"
  | .camera => "Camera & Composition"
  | .style => "Art Style"
  | .postProcessing => "Post-Processing"
  | .fx => "Special Effects"

/-- Recover a `BlockType` from its string value; `none` for unrecognized
strings (this is `Object.values(BlockType).includes` plus the cast). -/
def strToBlockType (s : String) : Option BlockType :=
  if s == "Subject" then some .subject
  else if s == "Background & Atmosphere" then some .background
  else if s == "Mood & Emotion" then some .mood
  else if s == "Lighting" then some .lighting
  else if s == "Camera & Composition" then some .camera
  else if s == "Art Style" then some .style
  else if s == "Post-Processing" then some .postProcessing
  else if s == "Special Effects" then some .fx
  else none

/-- The `BlockField.type` union from `types.ts`. -/
inductive FieldType where
  | text
  | select
  | slider
  | color
  | toggle
  | visualSelect
  | tags
  | radio
  | segmented
  | checkbox
  | detailedList
  | positionPicker
deriving DecidableEq, Repr

/-- An item of a `detailed-list` field value: the `\x7bname, details[]\x7d`
object shape the AI prompt and renderer agree on. -/
structure DetailItem where
  name : String
  details : List String
deriving DecidableEq, Repr

/-- Dynamically typed JS values as they occur in block field state:
strings, numbers (always integral in this schema), booleans, arrays,
the position-picker object `\x7bx, y, label\x7d`, and `null`/`undefined`
(`vNull`).  Every array this program stores or renders is either an array
of strings or an array of detailed-list items, so the two array shapes are
separate constructors. -/
inductive Val where
  | vNull
  | vStr (s : String)
  | vInt (n : Int)
  | vBool (b : Bool)
  | vStrList (items : List String)
  | vItemList (items : List DetailItem)
  | vPos (x y : Int) (label : String)
deriving DecidableEq, Repr

/-- Whether the value is a JS array (`Array.isArray`). -/
def Val.isArr : Val → Bool
  | .vStrList _ => true
  | .vItemList _ => true
  | _ => false

/-- Whether the value is an empty JS array. -/
def Val.isEmptyArr : Val → Bool
  | .vStrList [] => true
  | .vItemList [] => true
  | _ => false

/-- JS truthiness of a `Val` (objects and arrays are always truthy). -/
def Val.truthy : Val → Bool
  | .vNull => false
  | .vStr s => s ≠ ""
  | .vInt n => n ≠ 0
  | .vBool b => b
  | .vStrList _ => true
  | .vItemList _ => true
  | .vPos _ _ _ => true

/-- String conversion of a `Val` as done by JS template literals
(arrays join with commas, objects print as `[object Object]`). -/
def Val.toDisplay : Val → String
  | .vNull => "undefined"
  | .vStr s => s
  | .vInt n => toString n
  | .vBool b => if b then "true" else "false"
  | .vStrList items => String.intercalate "," items
  | .vItemList items => String.intercalate "," (items.map fun _ => "[object Object]")
  | .vPos _ _ _ => "[object Object]"

/-- Coercion to a number (`Number(val)`); only integral values occur where
the code applies it (the `subject_distance` slider). -/
def Val.toNum : Val → Int
  | .vInt n => n
  | .vBool b => if b then 1 else 0
  | _ => 0

/-- The `condition.value` union `string | string[]` from `types.ts`. -/
inductive CondValue where
  | scalar (s : String)
  | strSet (items : List String)
deriving DecidableEq, Repr

/-- A section visibility condition (`types.ts`). -/
structure Condition where
  blockType : Option BlockType
  sectionId : String
  fieldId : String
  value : CondValue
deriving DecidableEq, Repr

/-- A field definition (`types.ts`); UI-only properties (options,
suggestions, min/max, units) are not read by any verified logic and are
omitted. -/
structure BlockField where
  id : String
  label : String
  ftype : FieldType
  defaultValue : Val
deriving DecidableEq, Repr

/-- A section definition (`types.ts`); `group`/`defaultOpen` are UI-only. -/
structure BlockSectionDefinition where
  id : String
  label : String
  toggleable : Bool
  condition : Option Condition
  fields : List BlockField
deriving DecidableEq, Repr

/-- A block definition (`types.ts`); icon/colorTheme/description are
UI-only. -/
structure BlockDefinition where
  type : BlockType
  label : String
  singleActiveInstance : Bool
  sections : List BlockSectionDefinition
deriving DecidableEq, Repr

/-- Shorthand for a non-toggleable unconditioned section. -/
def secDef (id label : String) (fields : List BlockField) : BlockSectionDefinition :=
  { id := id, label := label, toggleable := false, condition := none, fields := fields }

/-- Shorthand for a field definition. -/
def fld (id label : String) (t : FieldType) (d : Val) : BlockField :=
  { id := id, label := label, ftype := t, defaultValue := d }

/-- The static schema catalog `BLOCK_DEFINITIONS` from `constants.tsx`,
transcribed type by type. -/
def BLOCK_DEFINITIONS : BlockType → BlockDefinition
  | .subject =>
    { type := .subject, label := "Subject", singleActiveInstance := false,
      sections := [
        secDef "core" "Identity" [
          fld "category" "Type" .select (.vStr "Human"),
          fld "count" "Number" .radio (.vStr "Single"),
          fld "role" "Description/Role" .text (.vStr "")],
        secDef "placement" "Placement & Depth" [
          fld "frame_position" "Frame Position" .positionPicker (.vPos 50 50 "Center"),
          fld "subject_size" "Size" .slider (.vInt 80),
          fld "subject_distance" "Distance from Camera" .slider (.vInt 50)],
        { secDef "human_physique" "Body & Looks" [
            fld "age" "Age" .text (.vStr ""),
            fld "gender" "Gender" .select (.vStr "Female"),
            fld "ethnicity" "Ethnicity" .text (.vStr ""),
            fld "body_type" "Physique" .select (.vStr "Average"),
            fld "hair_style" "Hair Style" .text (.vStr ""),
            fld "hair_color" "Hair Color" .color (.vStr "#000000")] with
          condition := some ⟨none, "core", "category", .scalar "Human"⟩ },
        { secDef "human_attire" "Wearables" [
            fld "style" "Fashion Style" .select (.vStr "Casual"),
            fld "attire_head" "Headwear" .detailedList (.vItemList []),
            fld "attire_inner" "Upper Body (Inner)" .detailedList (.vItemList []),
            fld "attire_outer" "Outerwear (Coat/Jacket)" .detailedList (.vItemList []),
            fld "attire_lower" "Lower Body" .detailedList (.vItemList []),
            fld "attire_feet" "Footwear" .detailedList (.vItemList []),
            fld "accessories" "Props / Extras" .detailedList (.vItemList [])] with
          condition := some ⟨none, "core", "category", .scalar "Human"⟩ },
        { secDef "creature_traits" "Traits" [
            fld "species" "Species" .text (.vStr ""),
            fld "texture" "Skin/Surface" .select (.vStr "Fur"),
            fld "color_pattern" "Color" .text (.vStr "")] with
          condition := some ⟨none, "core", "category",
            .strSet ["Animal", "Creature", "Robot"]⟩ },
        { secDef "object_specs" "Details" [
            fld "material_type" "Material" .select (.vStr "Matte Plastic"),
            fld "condition" "Condition" .segmented (.vStr "Brand New")] with
          condition := some ⟨none, "core", "category",
            .strSet ["Object", "Vehicle"]⟩ },
        { secDef "pose_action" "Action & Pose" [
            fld "pose" "Pose" .text (.vStr ""),
            fld "view_angle" "Angle" .select (.vStr "Front"),
            fld "action" "Activity" .text (.vStr "")] with
          condition := some ⟨none, "core", "category",
            .strSet ["Human", "Animal", "Creature", "Robot"]⟩ },
        { secDef "object_view" "Orientation" [
            fld "placement_context" "Context" .text (.vStr ""),
            fld "rotation" "Angle" .radio (.vStr "Front facing")] with
          condition := some ⟨none, "core", "category",
            .strSet ["Object", "Vehicle"]⟩ },
        { secDef "interactions" "Interactions" [
            fld "target_subject" "With Whom?" .select (.vStr "None"),
            fld "interaction_type" "Doing What?" .text (.vStr "")] with
          toggleable := true,
          condition := some ⟨none, "core", "category",
            .strSet ["Human", "Animal", "Creature", "Robot"]⟩ }] }
  | .background =>
    { type := .background, label := "Background", singleActiveInstance := true,
      sections := [
        secDef "setting" "Location" [
          fld "type" "Type" .select (.vStr "Outdoor"),
          fld "environment" "Setting" .text (.vStr ""),
          fld "time" "Time" .select (.vStr "Day")],
        { secDef "weather" "Weather" [
            fld "precip_type" "Condition" .select (.vStr "None"),
            fld "intensity" "Intensity" .slider (.vInt 50),
            fld "wetness" "Wetness" .slider (.vInt 50)] with toggleable := true },
        { secDef "fog" "Atmosphere (Fog)" [
            fld "density" "Density" .slider (.vInt 30),
            fld "color" "Color" .color (.vStr "#a1a1aa")] with toggleable := true },
        { secDef "transparency" "Background Removal" [
            fld "remove_bg" "Transparent BG" .toggle (.vBool false)] with
          toggleable := true }] }
  | .lighting =>
    { type := .lighting, label := "Lighting", singleActiveInstance := true,
      sections := [
        secDef "key_light" "Main Light" [
          fld "source" "Source" .select (.vStr "Sun"),
          fld "direction" "Direction" .select (.vStr "Side"),
          fld "intensity" "Brightness" .slider (.vInt 80),
          fld "color" "Color" .color (.vStr "#ffffff"),
          fld "quality" "Softness" .segmented (.vStr "Soft")],
        { secDef "fill_light" "Fill Light" [
            fld "intensity" "Brightness" .slider (.vInt 40),
            fld "color" "Color" .color (.vStr "#b0b0b0")] with toggleable := true },
        { secDef "rim_light" "Rim / Back Light" [
            fld "intensity" "Brightness" .slider (.vInt 70),
            fld "color" "Color" .color (.vStr "#ffffff")] with toggleable := true }] }
  | .mood =>
    { type := .mood, label := "Mood", singleActiveInstance := true,
      sections := [
        { secDef "emotion" "Emotion" [
            fld "primary" "Feeling" .text (.vStr ""),
            fld "intensity" "Intensity" .slider (.vInt 50)] with
          condition := some ⟨some .subject, "core", "category",
            .strSet ["Human", "Animal", "Creature", "Robot"]⟩ },
        secDef "atmosphere" "Vibe" [
          fld "vibe" "Atmosphere" .text (.vStr "")]] }
  | .camera =>
    { type := .camera, label := "Camera", singleActiveInstance := true,
      sections := [
        secDef "composition" "Framing" [
          fld "shot_size" "Shot Size" .select (.vStr "Medium Shot"),
          fld "angle" "Angle" .select (.vStr "Eye Level")],
        secDef "optics" "Lens & Focus" [
          fld "focal_length" "Zoom Level" .select (.vStr "50mm Portrait"),
          fld "aperture" "Blur Background" .radio (.vStr "f/2.8")]] }
  | .style =>
    { type := .style, label := "Art Style", singleActiveInstance := true,
      sections := [
        secDef "render" "Look & Feel" [
          fld "medium" "Medium" .select (.vStr "Photography"),
          fld "engine" "Engine/Tool" .text (.vStr "")],
        { secDef "film_stock" "Film Look" [
            fld "film_type" "Stock" .text (.vStr ""),
            fld "grain" "Grain" .slider (.vInt 20)] with
          condition := some ⟨none, "render", "medium", .scalar "Photography"⟩ }] }
  | .postProcessing =>
    { type := .postProcessing, label := "Color Grade", singleActiveInstance := true,
      sections := [
        secDef "grading" "Colors" [
          fld "tone" "Tone" .select (.vStr "Natural"),
          fld "contrast" "Contrast" .slider (.vInt 50),
          fld "saturation" "Saturation" .slider (.vInt 50)]] }
  | .fx =>
    { type := .fx, label := "Effects", singleActiveInstance := false,
      sections := [
        secDef "particles" "Particles" [
          fld "type" "Type" .select (.vStr "Dust"),
          fld "amount" "Amount" .slider (.vInt 40)]] }

/-- Per-section mutable state (`types.ts`): `enabled` is `undefined` for
non-toggleable sections; `fields` is keyed by field id, iterated in
insertion order. -/
structure SectionState where
  enabled : Option Bool
  fields : List (String × Val)
deriving DecidableEq, Repr

/-- The `CustomProperty.type` union from `types.ts`. -/
inductive CustomType where
  | text
  | slider
  | checkbox
  | color
deriving DecidableEq, Repr

/-- A user-defined custom property (`types.ts`); min/max are UI-only. -/
structure CustomProperty where
  id : String
  label : String
  ctype : CustomType
  value : Val
deriving DecidableEq, Repr

/-- A block instance (`types.ts`). -/
structure BlockState where
  id : String
  type : BlockType
  customLabel : Option String
  isActive : Bool
  sections : List (String × SectionState)
  customValues : List CustomProperty
  referenceImage : Option String
deriving DecidableEq, Repr

/-- Ordered association-list lookup, the embedding of `obj[key]`. -/
def alookup (l : List (String × α)) (k : String) : Option α :=
  (l.find? fun p => p.1 == k).map fun p => p.2

/-- The embedding of `block.sections[sid]?.fields[fid]`. -/
def BlockState.fieldVal (b : BlockState) (sid fid : String) : Option Val :=
  (alookup b.sections sid).bind fun ss => alookup ss.fields fid

/-! ## Prompt compiler (`services/geminiService.ts`, `constructPromptFromBlocks`) -/

/-- The `TYPE_PRIORITY` table.  The code falls back to `?? 99` for a type
absent from the table, but all eight enum members are present, so the
fallback is unreachable. -/
def TYPE_PRIORITY : BlockType → Nat
  | .subject => 0
  | .camera => 1
  | .lighting => 2
  | .background => 3
  | .fx => 4
  | .style => 5
  | .postProcessing => 6
  | .mood => 7

/-- Stable insertion of a block into a list sorted by `TYPE_PRIORITY`:
the block goes before the first element of greater-or-equal priority
drawn from later in the original list. -/
def insertByPriority (b : BlockState) : List BlockState → List BlockState
  | [] => [b]
  | c :: cs =>
    if TYPE_PRIORITY c.type < TYPE_PRIORITY b.type then c :: insertByPriority b cs
    else b :: c :: cs

/-- The embedding of `blocksToProcess.sort((a, b) => pA - pB)`:
`Array.prototype.sort` is specified stable, and a stable sort by the
priority key is exactly this insertion sort. -/
def sortBlocks : List BlockState → List BlockState
  | [] => []
  | b :: bs => insertByPriority b (sortBlocks bs)

/-- The `activeSections` filter predicate of `constructPromptFromBlocks`:
a section entry is kept when its definition exists, its toggle (if any) is
on, and its visibility condition (if any) holds against the controlling
block — the block itself, or the first active block of
`condition.blockType`, failing closed when none exists. -/
def isSectionVisible (allBlocks : List BlockState) (block : BlockState)
    (defSections : List BlockSectionDefinition) (sid : String) (ss : SectionState) : Bool :=
  match defSections.find? fun sd => sd.id == sid with
  | none => false
  | some sd =>
    if sd.toggleable && !(ss.enabled.getD false) then false
    else
      match sd.condition with
      | none => true
      | some c =>
        let ctrl : Option BlockState :=
          match c.blockType with
          | none => some block
          | some t => allBlocks.find? fun b => decide (b.type = t) && b.isActive
        match ctrl with
        | none => false
        | some cb =>
          let cv := (alookup cb.sections c.sectionId).bind fun s => alookup s.fields c.fieldId
          match c.value with
          | .scalar s => decide (cv = some (.vStr s))
          | .strSet items => items.any fun s => decide (cv = some (.vStr s))

/-- The qualitative bands for the `subject_distance` slider. -/
def distBand (dist : Int) : String :=
  if dist < 25 then "Extreme Foreground, close to lens"
  else if dist < 45 then "Foreground"
  else if dist < 65 then "Mid-ground"
  else if dist < 85 then "Background"
  else "Far Distance"

/-- The `val.label` access of the position-picker branch: `some label`
exactly when the value is the position object and its label is truthy. -/
def Val.posLabel : Val → Option String
  | .vPos _ _ l => if l ≠ "" then some l else none
  | _ => none

/-- JS `array.join(sep)` for the two array shapes. -/
def joinArr (v : Val) (sep : String) : String :=
  match v with
  | .vStrList items => String.intercalate sep items
  | .vItemList items => String.intercalate sep (items.map fun _ => "[object Object]")
  | _ => ""

/-- The `detailed-list` item rendering `<adjectives> <name>`; items that
are not `\x7bname, details\x7d` objects surface as `undefined`, as the JS
property accesses would. -/
def detailedItems (v : Val) : List String :=
  match v with
  | .vItemList items => items.map fun it =>
      (if it.details ≠ [] then String.intercalate " " it.details ++ " " else "") ++ it.name
  | .vStrList items => items.map fun _ => "undefined"
  | _ => []

/-- One iteration of the field-rendering loop: the text appended to
`fieldsDesc` for one `(fieldId, val)` entry (empty for skipped fields). -/
def renderField (sd : Option BlockSectionDefinition) (fieldId : String) (v : Val) : String :=
  if v = .vStr "None" ∨ v = .vBool false ∨ v = .vStr "" ∨ v.isEmptyArr then ""
  else
    let fieldDef := sd.bind fun d => d.fields.find? fun f => f.id == fieldId
    if fieldId = "subject_distance" then
      "Depth: " ++ distBand v.toNum ++ ", "
    else if fieldId = "subject_size" then
      "Visual Scale: Subject occupies approx " ++ v.toDisplay ++ "% of the image frame, "
    else if (fieldDef.map fun f => f.ftype) = some .positionPicker ∧ v.posLabel.isSome then
      match v.posLabel with
      | some label =>
        if label = "Center" then "Position: Perfectly Centered in the middle of the frame, "
        else "Frame Position: " ++ label ++ ", "
      | none => ""
    else if v = .vBool true then
      fieldId ++ ", "
    else if v.isArr then
      match fieldDef with
      | none => ""
      | some f =>
        if f.ftype = .detailedList then
          let items := detailedItems v
          if items ≠ [] then f.label ++ ": " ++ String.intercalate ", " items ++ ", " else ""
        else f.label ++ ": " ++ joinArr v ", " ++ ", "
    else
      match fieldDef with
      | none => ""
      | some f => f.label ++ ": " ++ v.toDisplay ++ ", "

/-- The accumulated `fieldsDesc` of one section. -/
def sectionFragment (sd : Option BlockSectionDefinition) (ss : SectionState) : String :=
  ss.fields.foldl (fun acc p => acc ++ renderField sd p.1 p.2) ""

/-- The special-cased `interactions` section: the bracketed suffix, or
`none` when the target is falsy or `"None"`. -/
def interactionFragment (subjectName : String) (ss : SectionState) : Option String :=
  let target := ((alookup ss.fields "target_subject").getD .vNull)
  let action := ((alookup ss.fields "interaction_type").getD .vNull)
  if target.truthy ∧ target ≠ .vStr "None" then
    some (" [INTERACTION: " ++ subjectName ++ " is " ++ action.toDisplay ++ " " ++ target.toDisplay ++ "]")
  else none

/-- The bespoke Camera framing phrases keyed on shot size and wide aspect
ratios. -/
def cameraFraming (activeSections : List (String × SectionState)) (aspectRatio : String) : List String :=
  let shotSize : Option Val :=
    (activeSections.find? fun p => p.1 == "composition").bind fun p => alookup p.2.fields "shot_size"
  let isWideRatio := aspectRatio = "16:9" ∨ aspectRatio = "21:9"
  if shotSize = some (.vStr "Extreme Close-up") then
    ["FRAMING: MACRO SHOT. Focus exclusively on details. If aspect ratio is wide, fill the frame horizontally with the subject\x27s face/detail. Do not zoom out."]
  else if shotSize = some (.vStr "Close-up") then
    if isWideRatio then
      ["FRAMING: ANAMORPHIC CLOSE-UP. Subject dominates the foreground. Crop top of head/chin if needed to fill width. Do not show wide environment."]
    else
      ["FRAMING: CLOSE-UP. Subject fills the frame."]
  else []

/-- Accumulator of the per-block section loop: the fragments pushed so far
and the (last-write-wins) interaction suffix. -/
structure RenderAcc where
  parts : List String
  interactions : String
deriving DecidableEq, Repr

/-- The `Custom Details` fragment body accumulated from `customValues`. -/
def customDesc (cvs : List CustomProperty) : String :=
  cvs.foldl (fun d cv =>
    if cv.label ≠ "" ∧ cv.value ≠ .vNull ∧ cv.value ≠ .vStr "" then
      if cv.ctype = .checkbox ∧ ¬ cv.value.truthy then d
      else
        let valStr := if cv.ctype = .checkbox then (if cv.value.truthy then "Yes" else "No")
                      else cv.value.toDisplay
        d ++ cv.label ++ ": " ++ valStr ++ ", "
    else d) ""

/-- One iteration of the per-block loop of `constructPromptFromBlocks`:
renders one active block into its bracketed clause (tagged with the block
type it came from), or `none` when nothing rendered. -/
def renderBlock (sorted : List BlockState) (aspectRatio : String) (block : BlockState) :
    Option (BlockType × String) :=
  let defn := BLOCK_DEFINITIONS block.type
  let activeSections := block.sections.filter fun p =>
    isSectionVisible sorted block defn.sections p.1 p.2
  let subjectName := match block.customLabel with
    | some s => if s ≠ "" then s else "The Subject"
    | none => "The Subject"
  let framing := if block.type = .camera then cameraFraming activeSections aspectRatio else []
  let acc := activeSections.foldl
    (fun (acc : RenderAcc) p =>
      if p.1 = "interactions" then
        match interactionFragment subjectName p.2 with
        | some s => { acc with interactions := s }
        | none => acc
      else
        let sd := defn.sections.find? fun d => d.id == p.1
        let fieldsDesc := sectionFragment sd p.2
        if fieldsDesc ≠ "" then { acc with parts := acc.parts ++ [fieldsDesc.dropRight 2] }
        else acc)
    { parts := framing, interactions := "" }
  let cd := customDesc block.customValues
  let parts := acc.parts ++ (if cd ≠ "" then ["Custom Details: " ++ cd.dropRight 2] else [])
  if parts ≠ [] ∨ acc.interactions ≠ "" then
    let label := match block.customLabel with
      | some cl => if cl ≠ "" ∧ cl ≠ "Subject" then "\"" ++ cl ++ "\"" else subjectName
      | none => subjectName
    some (block.type,
      "[" ++ block.type.str ++ " - " ++ label ++ "]: " ++
        String.intercalate " | " parts ++ acc.interactions)
  else none

/-- The fixed isolation-background directive. -/
def isolationDirective : String :=
  "Isolated on a solid pure white background (#FFFFFF). No shadows, no environment, clean edges for cutout."

/-- The `blocksToProcess` merge of `constructPromptFromBlocks`: with
`useBaseStyle` and a nonempty global list, actives-only filtered globals
(dropping single-instance types already present among active locals)
prepended to the locals; otherwise the locals alone. -/
def blocksToProcess (localBlocks : List BlockState) (useBaseStyle : Bool)
    (globalBlocks : List BlockState) : List BlockState :=
  if useBaseStyle ∧ globalBlocks ≠ [] then
    let localTypes := (localBlocks.filter fun b => b.isActive).map fun b => b.type
    (globalBlocks.filter fun gb =>
      gb.isActive &&
        !((BLOCK_DEFINITIONS gb.type).singleActiveInstance && decide (gb.type ∈ localTypes)))
      ++ localBlocks
  else localBlocks

/-- The `isTransparencyEnabled` test: the first active Background block of
the processed list has `sections['transparency'].fields['remove_bg'] === true`.
The section's `enabled` toggle is not consulted here. -/
def transparencyFlag (blocks : List BlockState) : Bool :=
  match blocks.find? fun b => decide (b.type = .background) && b.isActive with
  | none => false
  | some bg => decide (bg.fieldVal "transparency" "remove_bg" = some (.vBool true))

/-- The block clauses of the prompt, in emission order, each tagged with
the type of the block that produced it. -/
def constructPromptClauses (localBlocks : List BlockState) (useBaseStyle : Bool)
    (globalBlocks : List BlockState) (aspectRatio : String) : List (BlockType × String) :=
  let sorted := sortBlocks (blocksToProcess localBlocks useBaseStyle globalBlocks)
  (sorted.filter fun b => b.isActive).filterMap (renderBlock sorted aspectRatio)

/-- The `promptParts` list of `constructPromptFromBlocks`: optional style
directive, optional isolation directive, then the block clauses. -/
def constructPromptParts (localBlocks : List BlockState) (baseStyle : String)
    (useBaseStyle : Bool) (globalBlocks : List BlockState) (aspectRatio : String) :
    List String :=
  (if useBaseStyle ∧ baseStyle ≠ "" then ["Style: " ++ baseStyle ++ "."] else [])
    ++ (if transparencyFlag (blocksToProcess localBlocks useBaseStyle globalBlocks)
        then [isolationDirective] else [])
    ++ (constructPromptClauses localBlocks useBaseStyle globalBlocks aspectRatio).map fun c => c.2

/-- The full compiled prompt: `promptParts.join(". ")`. -/
def constructPromptFromBlocks (localBlocks : List BlockState) (baseStyle : String)
    (useBaseStyle : Bool) (globalBlocks : List BlockState) (aspectRatio : String) : String :=
  String.intercalate ". " (constructPromptParts localBlocks baseStyle useBaseStyle globalBlocks aspectRatio)

/-! ## Block state store operations (`components/Editor.tsx`) -/

/-- The `insertNewBlock` helper: for a single-instance type, deactivate
every active sibling of the new block type, then append the new block. -/
def insertNewBlock (blocks : List BlockState) (newBlock : BlockState)
    (isSingleInstance : Bool) : List BlockState :=
  let updated :=
    if isSingleInstance then
      blocks.map fun b =>
        if decide (b.type = newBlock.type) && b.isActive then { b with isActive := false } else b
    else blocks
  updated ++ [newBlock]

/-- Default sections for a freshly added block: every schema section
present, toggleable sections disabled, fields at their schema defaults. -/
def defaultSections (t : BlockType) : List (String × SectionState) :=
  (BLOCK_DEFINITIONS t).sections.map fun s =>
    (s.id,
     { enabled := if s.toggleable then some false else none,
       fields := s.fields.map fun f => (f.id, f.defaultValue) })

/-- `createDefaultBlockState` of `constants.tsx` without overrides (the
minted `b-${type}-${Date.now()}-...` id is passed in): active, labelled
with the schema label, every schema section at its defaults. -/
def createDefaultBlockState (t : BlockType) (id : String) : BlockState :=
  { id := id, type := t, isActive := true,
    customLabel := some (BLOCK_DEFINITIONS t).label,
    sections := defaultSections t, customValues := [], referenceImage := none }

/-- The `addBlock` operation (the fresh id `block-${Date.now()}` is passed
in as a parameter). -/
def addBlock (blocks : List BlockState) (newId : String) (t : BlockType) : List BlockState :=
  let defn := BLOCK_DEFINITIONS t
  let existingCount := (blocks.filter fun b => decide (b.type = t)).length
  let newBlock : BlockState :=
    { id := newId, type := t, isActive := true,
      customLabel := some (defn.label ++ " " ++ toString (existingCount + 1)),
      sections := defaultSections t, customValues := [], referenceImage := none }
  insertNewBlock blocks newBlock defn.singleActiveInstance

/-- Insertion at a position, the embedding of `splice(n, 0, a)`. -/
def listInsertAt (l : List α) (n : Nat) (a : α) : List α :=
  l.take n ++ [a] ++ l.drop n

/-- The `duplicateBlock` operation on the local list (the global-scope
guard rejects before reaching this path): deep copy with a fresh id and
re-numbered label, inactive when the type is single-instance, inserted
right after the source. -/
def duplicateBlock (blocks : List BlockState) (src : BlockState) (newId : String) :
    List BlockState :=
  let defn := BLOCK_DEFINITIONS src.type
  let existingCount := (blocks.filter fun b => decide (b.type = src.type)).length
  let newBlock :=
    { src with id := newId,
               customLabel := some (defn.label ++ " " ++ toString (existingCount + 1)),
               isActive := if defn.singleActiveInstance then false else src.isActive }
  let idx : Int := match blocks.findIdx? fun b => b.id == src.id with
    | some i => (i : Int)
    | none => -1
  listInsertAt blocks (idx + 1).toNat newBlock

/-- The local branch of the editor's `toggleBlockActive` (its `setBlocks`
update): when turning a single-instance block on, deactivate the other
active siblings first, then flip the block itself. -/
def toggleLocalActive (blocks : List BlockState) (target : BlockState) : List BlockState :=
  let defn := BLOCK_DEFINITIONS target.type
  let willBeActive := !target.isActive
  let updated :=
    if willBeActive && defn.singleActiveInstance then
      blocks.map fun b =>
        if decide (b.type = target.type) && b.id != target.id && b.isActive then
          { b with isActive := false }
        else b
    else blocks
  updated.map fun b => if b.id == target.id then { b with isActive := willBeActive } else b

/-- The `updateGlobalBlock` handler (`App.tsx` and the project view):
plain replace of the block carrying the updated id in the project's
global list — no sibling is touched. -/
def updateGlobalBlock (globalBlocks : List BlockState) (updated : BlockState) :
    List BlockState :=
  globalBlocks.map fun b => if b.id == updated.id then updated else b

/-- The editor's full `toggleBlockActive` over both scopes, returning the
pair (locals, globals): a target whose id lives in the globals list is
flipped and routed through `updateGlobalBlock` — the plain replace, with
no sibling deactivation — while a local target goes through the local
branch with its deactivation pass. -/
def toggleBlockActive (blocks globalBlocks : List BlockState) (target : BlockState) :
    List BlockState × List BlockState :=
  if globalBlocks.any fun gb => gb.id == target.id then
    (blocks, updateGlobalBlock globalBlocks { target with isActive := !target.isActive })
  else
    (toggleLocalActive blocks target, globalBlocks)

/-- The project view's `addGlobalBlock`: numbered label only for
multi-instance types with existing siblings, a deactivation pass over
active same-type globals when the type is single-instance, then the new
default block pushed active. -/
def addGlobalBlock (globalBlocks : List BlockState) (newId : String) (t : BlockType) :
    List BlockState :=
  let defn := BLOCK_DEFINITIONS t
  let existingCount := (globalBlocks.filter fun b => decide (b.type = t)).length
  let customLabel :=
    if !defn.singleActiveInstance && decide (0 < existingCount) then
      defn.label ++ " " ++ toString (existingCount + 1)
    else defn.label
  let newBlock := { createDefaultBlockState t newId with customLabel := some customLabel }
  let updated :=
    if defn.singleActiveInstance then
      globalBlocks.map fun b =>
        if decide (b.type = t) && b.isActive then { b with isActive := false } else b
    else globalBlocks
  updated ++ [newBlock]

/-- The `effectiveBlocks` memo of the editor: with `useBaseStyle` and a
nonempty global list, globals filtered by the shadowing rule (dropped when
single-instance and any local of the same type exists, active or not)
prepended to the locals.  The UI-only `isGlobal` display tag the source
attaches to merged globals is dropped here: nothing verified reads it. -/
def effectiveBlocks (blocks : List BlockState) (globalBlocks : List BlockState)
    (useBaseStyle : Bool) : List BlockState :=
  if useBaseStyle ∧ globalBlocks ≠ [] then
    let localTypes := blocks.map fun b => b.type
    (globalBlocks.filter fun gb =>
      !((BLOCK_DEFINITIONS gb.type).singleActiveInstance && decide (gb.type ∈ localTypes)))
      ++ blocks
  else blocks

/-! ## Untrusted import normalization (`parseRawBlocksToState`) -/

/-- The `ParsedSectionData` shape of incoming AI JSON. -/
structure RawSection where
  enabled : Option Bool
  fields : List (String × Val)
deriving DecidableEq, Repr

/-- The raw incoming block shape: an untrusted `type` string, optional id,
and arbitrary section data. -/
structure RawBlock where
  id : Option String
  type : String
  sections : List (String × RawSection)
deriving DecidableEq, Repr

/-- JS nullish coalescing `v ?? d` where `v` also covers a JSON `null`. -/
def nullishGetD (v : Option Val) (d : Val) : Val :=
  match v with
  | none => d
  | some .vNull => d
  | some w => w

/-- The `safeSections` construction: every schema section of the (cast)
type re-derived, with incoming values kept when present and non-nullish
and schema defaults substituted otherwise; empty when the type string is
not a schema type. -/
def safeSections (tStr : String) (rb : RawBlock) : List (String × SectionState) :=
  match strToBlockType tStr with
  | none => []
  | some t =>
    (BLOCK_DEFINITIONS t).sections.map fun sd =>
      let incoming := alookup rb.sections sd.id
      (sd.id,
       { enabled := if sd.toggleable then some ((incoming.bind fun s => s.enabled).getD false)
                    else none,
         fields := sd.fields.map fun f =>
           (f.id, nullishGetD (incoming.bind fun s => alookup s.fields f.id) f.defaultValue) })

/-- The per-element mapper of `parseRawBlocksToState` before the
recognized-type filter; `now` stands for `Date.now()`. -/
structure ParsedBlock where
  id : String
  typeStr : String
  isActive : Bool
  sections : List (String × SectionState)
deriving DecidableEq, Repr

/-- One mapped raw block: generated id unless the incoming id is truthy
and starts with `b-`; `isActive` unconditionally true. -/
def parseOneRaw (now idx : Nat) (rb : RawBlock) : ParsedBlock :=
  let genId := "generated-" ++ toString now ++ "-" ++ toString idx
  { id := match rb.id with
      | some i => if i.startsWith "b-" then i else genId
      | none => genId,
    typeStr := rb.type, isActive := true, sections := safeSections rb.type rb }

/-- The `parseRawBlocksToState` normalizer: map every raw block, then keep
exactly those whose type string is a schema type (the source maps first
and filters after; the composition is this `filterMap`). -/
def parseRawBlocksToState (now : Nat) (raws : List RawBlock) : List BlockState :=
  (raws.enum.map fun p => parseOneRaw now p.1 p.2).filterMap fun pb =>
    (strToBlockType pb.typeStr).map fun t =>
      { id := pb.id, type := t, customLabel := none, isActive := pb.isActive,
        sections := pb.sections, customValues := [], referenceImage := none }

/-! ## Smart labels and change summary (`constants.tsx`, `Editor.tsx`) -/

/-- The `getSmartLabel` heuristic. -/
def getSmartLabel (block : BlockState) : String :=
  let defn := BLOCK_DEFINITIONS block.type
  let custom := block.customLabel.getD ""
  if custom ≠ "" ∧ custom ≠ defn.label ∧ ¬ custom.startsWith (defn.label ++ " ") then custom
  else
    let fallback := if custom ≠ "" then custom else defn.label
    if block.type = .subject then
      let role := (block.fieldVal "core" "role").getD .vNull
      let category := (block.fieldVal "core" "category").getD .vNull
      if role.truthy ∧ role ≠ .vStr "Subject" ∧ role ≠ .vStr "Description/Role" then
        role.toDisplay
      else if category.truthy then category.toDisplay
      else fallback
    else if block.type = .background then
      let env := (block.fieldVal "setting" "environment").getD .vNull
      let ty := (block.fieldVal "setting" "type").getD .vNull
      if env.truthy ∧ env ≠ .vStr "Environment" then env.toDisplay
      else if ty.truthy then ty.toDisplay ++ " Scene"
      else fallback
    else if block.type = .lighting then
      let source := (block.fieldVal "key_light" "source").getD .vNull
      if source.truthy then source.toDisplay ++ " Light" else fallback
    else fallback

/-- JS `new Map(list.map(b => [b.id, b])).get(id)`: the last entry wins. -/
def jsMapGet (bs : List BlockState) (id : String) : Option BlockState :=
  bs.foldl (fun acc b => if b.id == id then some b else acc) none

/-- Insertion into a JS `Set` of strings: insertion order kept, duplicates
collapsed. -/
def addChange (l : List String) (s : String) : List String :=
  if s ∈ l then l else l ++ [s]

/-- The modified-block test of `getChangeSummary`: `sections`, `isActive`,
`customLabel` or `customValues` structurally unequal (the source compares
the former and latter via `JSON.stringify`). -/
def blockModified (old new_ : BlockState) : Bool :=
  decide (new_.sections ≠ old.sections) || (new_.isActive != old.isActive) ||
  decide (new_.customLabel ≠ old.customLabel) || decide (new_.customValues ≠ old.customValues)

/-- The insertion-ordered deduplicated change descriptions: added, then
removed, then modified blocks. -/
def changeDescriptions (oldBlocks newBlocks : List BlockState) : List String :=
  let c1 := newBlocks.foldl
    (fun l b => if (jsMapGet oldBlocks b.id).isNone then addChange l ("Added " ++ getSmartLabel b) else l) []
  let c2 := oldBlocks.foldl
    (fun l b => if (jsMapGet newBlocks b.id).isNone then addChange l ("Removed " ++ getSmartLabel b) else l) c1
  newBlocks.foldl
    (fun l b =>
      match jsMapGet oldBlocks b.id with
      | some old => if blockModified old b then addChange l ("Modified " ++ getSmartLabel b) else l
      | none => l) c2

/-- The `getChangeSummary` renderer over the deduplicated change list. -/
def getChangeSummary (oldBlocks newBlocks : List BlockState) : String :=
  match changeDescriptions oldBlocks newBlocks with
  | [] => "Regenerated"
  | [a] => a
  | [a, b] => a ++ ", " ++ b
  | l@(a :: _ :: _ :: _) => toString l.length ++ " Changes (e.g. " ++ a ++ ")"

/-! ## Labs: text overlays, drag interaction, grain stage (`components/Labs.tsx`) -/

/-- A text overlay (`types.ts`). -/
structure TextOverlay where
  id : String
  text : String
  x : ℚ
  y : ℚ
  size : ℚ
  color : String
  font : String
  shadow : Bool
  bg : String
  letterSpacing : ℚ
deriving DecidableEq, Repr

/-- The nine filter knobs (`types.ts`). -/
structure LabsFilters where
  brightness : ℚ
  contrast : ℚ
  saturation : ℚ
  sepia : ℚ
  grayscale : ℚ
  blur : ℚ
  hue : ℚ
  vignette : ℚ
  grain : ℚ
deriving DecidableEq, Repr

/-- The crop/rotate transform (`types.ts`). -/
structure LabsTransform where
  zoom : ℚ
  x : ℚ
  y : ℚ
  rotation : ℚ
deriving DecidableEq, Repr

/-- The labs state (`types.ts`); the deprecated legacy `overlay` field is
only read by the migration helper, which is out of the verified scope. -/
structure LabsState where
  filters : LabsFilters
  overlays : List TextOverlay
  transform : Option LabsTransform
deriving DecidableEq, Repr

/-- The drag-state machine mode of `LabsCanvas`. -/
inductive DragMode where
  | idle
  | move
  | resize
deriving DecidableEq, Repr

/-- The `handlePointerMove` handler of `LabsCanvas`, as a function of the
captured drag state (`dragMode`, `initialOverlayState`, `dragStart`), the
canvas bounding rectangle dimensions, the current pointer client position,
and the overlay state; the source returns without changes when no drag is
in progress (the source spells the idle mode `'none'`). -/
def handlePointerMove (dragMode : DragMode) (initialOverlayState : Option TextOverlay)
    (dragStart : ℚ × ℚ) (rectW rectH : ℚ) (client : ℚ × ℚ) (state : LabsState) : LabsState :=
  match dragMode, initialOverlayState with
  | .idle, _ => state
  | _, none => state
  | .move, some init =>
    let deltaPctX := (client.1 - dragStart.1) / rectW * 100
    let deltaPctY := (client.2 - dragStart.2) / rectH * 100
    let newX := max 0 (min 100 (init.x + deltaPctX))
    let newY := max 0 (min 100 (init.y + deltaPctY))
    { state with overlays := state.overlays.map fun o =>
        if o.id == init.id then { o with x := newX, y := newY } else o }
  | .resize, some init =>
    let scaleDelta := ((client.1 - dragStart.1) + (client.2 - dragStart.2)) / 2
    let newSize := max 10 (min 300 (init.size + scaleDelta * (1/2)))
    { state with overlays := state.overlays.map fun o =>
        if o.id == init.id then { o with size := newSize } else o }

/-- An RGBA pixel of the canvas `ImageData`, channels in 0..255. -/
structure Pixel where
  r : Nat
  g : Nat
  b : Nat
  a : Nat
deriving DecidableEq, Repr

/-- Round half to even, the rounding mode of `Uint8ClampedArray` stores. -/
def rte (q : ℚ) : Int :=
  let f := ⌊q⌋
  let d := q - f
  if d < 1/2 then f
  else if 1/2 < d then f + 1
  else if f % 2 = 0 then f else f + 1

/-- Store a real channel value into a `Uint8ClampedArray` slot. -/
def clampByte (q : ℚ) : Nat :=
  (max 0 (min 255 (rte q))).toNat

/-- The grain stage of the `LabsCanvas` draw effect: when `grain > 0`, for
every pixel with nonzero alpha one uniform sample `rand i ∈ [0, 1)` (the
`Math.random()` call of that loop iteration, passed in as an explicit
stream) is centered and scaled by `(grain / 100) * 255 * 0.2`, and the
same resulting noise value is added to the R, G and B channels. -/
def grainStage (grain : ℚ) (rand : Nat → ℚ) (pixels : List Pixel) : List Pixel :=
  if 0 < grain then
    pixels.enum.map fun ip =>
      let p := ip.2
      if p.a = 0 then p
      else
        let noise := (rand ip.1 - 1/2) * (grain / 100 * 255 * (1/5))
        { p with r := clampByte (p.r + noise),
                 g := clampByte (p.g + noise),
                 b := clampByte (p.b + noise) }
  else pixels

/-- The grain stage as the specification text describes it, for comparison
with `grainStage`: independent uniform noise per channel (three samples
per pixel), each scaled by `grain / 255 * 0.2`. -/
def grainStageSpec (grain : ℚ) (rand : Nat → ℚ) (pixels : List Pixel) : List Pixel :=
  if 0 < grain then
    pixels.enum.map fun ip =>
      let p := ip.2
      if p.a = 0 then p
      else
        { p with r := clampByte (p.r + (rand (3 * ip.1) - 1/2) * (grain / 255 * (1/5))),
                 g := clampByte (p.g + (rand (3 * ip.1 + 1) - 1/2) * (grain / 255 * (1/5))),
                 b := clampByte (p.b + (rand (3 * ip.1 + 2) - 1/2) * (grain / 255 * (1/5))) }
  else pixels

/-! ## Definitions supporting the claim statements -/

/-- The blocks counted by the single-active-instance invariant. -/
def activeOfType (t : BlockType) (b : BlockState) : Bool :=
  decide (b.type = t) && b.isActive

/-- At most one active block per single-instance type within one scope. -/
def singleActiveInv (blocks : List BlockState) : Prop :=
  ∀ t, (BLOCK_DEFINITIONS t).singleActiveInstance = true →
    blocks.countP (activeOfType t) ≤ 1

/-- A store mutation as the user can issue it: add a block of a type,
duplicate an existing block (by id), toggle a block (by id).  The fresh
ids the UI mints with `Date.now()` are carried explicitly. -/
inductive StoreOp where
  | add (newId : String) (t : BlockType)
  | dup (srcId : String) (newId : String)
  | toggle (id : String)
deriving DecidableEq, Repr

/-- Interpretation of one operation over the local block list; operations
naming an id absent from the list do nothing (the UI only issues them for
rendered blocks). -/
def applyOp (blocks : List BlockState) : StoreOp → List BlockState
  | .add newId t => addBlock blocks newId t
  | .dup srcId newId =>
    match blocks.find? fun b => b.id == srcId with
    | some src => duplicateBlock blocks src newId
    | none => blocks
  | .toggle id =>
    match blocks.find? fun b => b.id == id with
    | some b => toggleLocalActive blocks b
    | none => blocks

/-- A sequence of store operations, applied left to right. -/
def applyOps (blocks : List BlockState) (ops : List StoreOp) : List BlockState :=
  ops.foldl applyOp blocks

/-- Freshness of the id an operation mints, against the current list. -/
def opFresh (blocks : List BlockState) : StoreOp → Prop
  | .add newId _ => ∀ b ∈ blocks, b.id ≠ newId
  | .dup _ newId => ∀ b ∈ blocks, b.id ≠ newId
  | .toggle _ => True

/-- Freshness along the whole trace of a sequence. -/
def opsFresh (blocks : List BlockState) : List StoreOp → Prop
  | [] => True
  | op :: rest => opFresh blocks op ∧ opsFresh (applyOp blocks op) rest

/-- The store state invariant: distinct ids and single-active-instance. -/
def storeInv (blocks : List BlockState) : Prop :=
  (blocks.map fun b => b.id).Nodup ∧ singleActiveInv blocks

/-- The scalar-equality / set-membership match of a section condition
against the controlling block, as a proposition. -/
def condValueMatches (c : Condition) (cb : BlockState) : Prop :=
  match c.value with
  | .scalar s => cb.fieldVal c.sectionId c.fieldId = some (.vStr s)
  | .strSet items => ∃ s ∈ items, cb.fieldVal c.sectionId c.fieldId = some (.vStr s)

/-- Replace one field value in a block (test-data construction). -/
def withField (b : BlockState) (sid fid : String) (v : Val) : BlockState :=
  { b with sections := b.sections.map fun p =>
      if p.1 == sid then
        (p.1, { p.2 with fields := p.2.fields.map fun q => if q.1 == fid then (q.1, v) else q })
      else p }

/-- A block of a type with all schema defaults, used to build concrete
scenarios. -/
def freshBlock (t : BlockType) (id : String) : BlockState :=
  { id := id, type := t, customLabel := none, isActive := true,
    sections := defaultSections t, customValues := [], referenceImage := none }

/-- A constant noise stream standing for a `Math.random()` draw of 0.9. -/
def constNoise : Nat → ℚ := fun _ => 9/10

/-- A Background block whose transparency section is toggled off (the
`defaultSections` default) but whose `remove_bg` field is true. -/
def cxBackground : BlockState :=
  withField (freshBlock .background "b-bg") "transparency" "remove_bg" (.vBool true)

/-- A Mood block with an arbitrary `primary` emotion value and a visible
atmosphere vibe (section states written out: these are the schema defaults
with `primary` and `vibe` replaced). -/
def mkMoodBlock (v : Val) : BlockState :=
  { id := "m1", type := .mood, customLabel := none, isActive := true,
    sections := [
      ("emotion", { enabled := none, fields := [("primary", v), ("intensity", .vInt 50)] }),
      ("atmosphere", { enabled := none, fields := [("vibe", .vStr "Calm")] })],
    customValues := [], referenceImage := none }

/-- The Subject block of the specification scenario (`category=Human` is
the schema default; `role=Detective`). -/
def subjDetective : BlockState :=
  withField (freshBlock .subject "s1") "core" "role" (.vStr "Detective")

/-- The Background block of the specification scenario (`type=Outdoor` is
the schema default). -/
def bgAlley : BlockState :=
  withField (freshBlock .background "b1") "setting" "environment" (.vStr "Rain-soaked alley")

/-- A Subject block named Hero, active or not (three of these with
distinct ids all carry the smart label `Hero`). -/
def heroBlock (id : String) (act : Bool) : BlockState :=
  { id := id, type := .subject, customLabel := some "Hero", isActive := act,
    sections := [], customValues := [], referenceImage := none }

/-- A raw AI block whose `role` field carries a number where the schema
declares a text field. -/
def rbMistyped : RawBlock :=
  { id := none, type := "Subject",
    sections := [("core", { enabled := none, fields := [("role", .vInt 42)] })] }

/-- A raw AI block of the (single-instance) Background type. -/
def rawBackground : RawBlock :=
  { id := none, type := "Background & Atmosphere", sections := [] }

/-- The `DEFAULT_LABS_STATE` constant of `constants.tsx` (no `transform`
property is present, i.e. it is `undefined`). -/
def DEFAULT_LABS_STATE : LabsState :=
  { filters := { brightness := 100, contrast := 100, saturation := 100, sepia := 0,
                 grayscale := 0, blur := 0, hue := 0, vignette := 0, grain := 0 },
    overlays := [], transform := none }

/-- A concrete overlay for drag witnesses. -/
def ovA : TextOverlay :=
  { id := "t1", text := "Alpha", x := 50, y := 50, size := 40, color := "#ffffff",
    font := "Inter", shadow := false, bg := "transparent", letterSpacing := 0 }

/-- A second overlay with a distinct id. -/
def ovB : TextOverlay := { ovA with id := "t2", text := "Beta" }

/-- A labs state holding the two witness overlays. -/
def wst : LabsState := { DEFAULT_LABS_STATE with overlays := [ovA, ovB] }

/-- The normalized form of `rawBackground` after import (generated id at
`now = 0`, index 0). -/
def importedBg : BlockState :=
  { id := "generated-0-0", type := .background, customLabel := none, isActive := true,
    sections := defaultSections .background, customValues := [], referenceImage := none }

/-- A raw block whose type string is no schema type. -/
def rbBogus : RawBlock := { id := none, type := "Bogus", sections := [] }

/-- The single block produced by importing `rbMistyped`. -/
def bMist : BlockState :=
  (parseRawBlocksToState 0 [rbMistyped]).headD (freshBlock .subject "x")

/-- Hero blocks with distinct ids and distinct labels, and modified
counterparts, for the change-summary witnesses. -/
def hImp : String → String → Bool → BlockState := fun id lbl act =>
  { id := id, type := .subject, customLabel := some lbl, isActive := act,
    sections := [], customValues := [], referenceImage := none }

/-! ## Theorems -/

/-- Left cancellation of string concatenation. -/
theorem string_append_left_cancel {s t u : String} (h : s ++ t = s ++ u) : t = u := by
  apply String.ext
  have hd : s.data ++ t.data = s.data ++ u.data := by
    have h1 : (s ++ t).data = (s ++ u).data := by rw [h]
    simpa using h1
  exact List.append_cancel_left hd

/-- A fold whose step fixes the accumulator on every list element. -/
theorem foldl_fixed {α β : Type} {f : β → α → β} {l : List α} {acc : β}
    (h : ∀ b acc2, b ∈ l → f acc2 b = acc2) : l.foldl f acc = acc := by
  induction l generalizing acc with
  | nil => rfl
  | cons c rest ih =>
    rw [List.foldl_cons, h c acc (by simp)]
    exact ih fun b acc2 hb => h b acc2 (by simp [hb])

/-- With distinct ids, the JS map lookup of a member's id is the member. -/
theorem jsMapGet_self {bs : List BlockState} {b : BlockState}
    (hnd : (bs.map fun x => x.id).Nodup) (hb : b ∈ bs) :
    jsMapGet bs b.id = some b := by
  induction bs with
  | nil => cases hb
  | cons c rest ih =>
    simp only [List.map_cons, List.nodup_cons] at hnd
    simp only [jsMapGet, List.foldl_cons]
    rcases List.mem_cons.mp hb with rfl | hbr
    · rw [if_pos (by simp)]
      apply foldl_fixed
      intro d acc2 hd
      have hne : d.id ≠ b.id := fun he => hnd.1 (List.mem_map.mpr ⟨d, hd, he⟩)
      simp [hne]
    · have hne : c.id ≠ b.id := by
        intro he
        exact hnd.1 (by rw [he]; exact List.mem_map.mpr ⟨b, hbr, rfl⟩)
      rw [if_neg (by simpa using hne)]
      exact ih hnd.2 hbr

/-- A block is unmodified against itself. -/
theorem blockModified_self (b : BlockState) : blockModified b b = false := by
  simp [blockModified]

/-- C3: with `useBaseStyle = true` the effective list is the filtered
globals followed by the locals; a global is excluded exactly when its type
is single-instance and a local of that type exists; in particular a global
Background facing a local Background is entirely absent. -/
theorem effectiveBlocks_shadowing :
    (∀ (blocks globalBlocks : List BlockState),
      effectiveBlocks blocks globalBlocks true =
        (globalBlocks.filter fun gb =>
          !((BLOCK_DEFINITIONS gb.type).singleActiveInstance &&
            decide (gb.type ∈ blocks.map fun b => b.type))) ++ blocks)
    ∧ (∀ (blocks globalBlocks : List BlockState) (gb : BlockState),
        gb ∈ globalBlocks →
        (BLOCK_DEFINITIONS gb.type).singleActiveInstance = true →
        (∃ b ∈ blocks, b.type = gb.type) →
        gb ∉ blocks →
        gb ∉ effectiveBlocks blocks globalBlocks true)
    ∧ (∀ (blocks globalBlocks : List BlockState) (gb : BlockState),
        gb ∈ globalBlocks →
        ¬((BLOCK_DEFINITIONS gb.type).singleActiveInstance = true ∧
            ∃ b ∈ blocks, b.type = gb.type) →
        gb ∈ effectiveBlocks blocks globalBlocks true)
    ∧ (∀ g l : BlockState, g.type = .background → l.type = .background →
        effectiveBlocks [l] [g] true = [l]) := by
  have hmain : ∀ (blocks globalBlocks : List BlockState),
      effectiveBlocks blocks globalBlocks true =
        (globalBlocks.filter fun gb =>
          !((BLOCK_DEFINITIONS gb.type).singleActiveInstance &&
            decide (gb.type ∈ blocks.map fun b => b.type))) ++ blocks := by
    intro blocks globalBlocks
    by_cases hg : globalBlocks = []
    · subst hg; simp [effectiveBlocks]
    · simp [effectiveBlocks, hg]
  refine ⟨hmain, ?_, ?_, ?_⟩
  · intro blocks globalBlocks gb hmem hsai hex hnotin
    rw [hmain]
    intro hin
    rcases List.mem_append.mp hin with hfil | hloc
    · have := List.of_mem_filter hfil
      rcases hex with ⟨b, hb, hbt⟩
      have hmemty : gb.type ∈ blocks.map fun b => b.type :=
        List.mem_map.mpr ⟨b, hb, hbt⟩
      simp [hsai, hmemty] at this
    · exact hnotin hloc
  · intro blocks globalBlocks gb hmem hnot
    rw [hmain]
    refine List.mem_append.mpr (.inl (List.mem_filter.mpr ⟨hmem, ?_⟩))
    by_cases hsai : (BLOCK_DEFINITIONS gb.type).singleActiveInstance = true
    · have hnm : gb.type ∉ blocks.map fun b => b.type := by
        intro hc
        rcases List.mem_map.mp hc with ⟨b, hb, hbt⟩
        exact hnot ⟨hsai, ⟨b, hb, hbt⟩⟩
      simp [hsai, hnm]
    · simp [Bool.not_eq_true] at hsai
      simp [hsai]
  · intro g l hg hl
    have hsai : (BLOCK_DEFINITIONS g.type).singleActiveInstance = true := by
      rw [hg]; rfl
    rw [hmain]
    have hb : (BLOCK_DEFINITIONS BlockType.background).singleActiveInstance = true := rfl
    simp [hg, hl, hb]

/-- C3 witness: the single-instance shadowing at a concrete pair of
Background blocks. -/
theorem effectiveBlocks_shadowing_witness :
    cxBackground ∉ effectiveBlocks [bgAlley] [cxBackground] true
    ∧ effectiveBlocks [bgAlley] [cxBackground] true = [bgAlley] :=
  ⟨effectiveBlocks_shadowing.2.1 [bgAlley] [cxBackground] cxBackground
      (by decide) rfl ⟨bgAlley, by decide, rfl⟩ (by decide),
   effectiveBlocks_shadowing.2.2.2 cxBackground bgAlley rfl rfl⟩

/-- Applying a later move of the same drag overrides an earlier one. -/
theorem move_override (init : TextOverlay) (start : ℚ × ℚ) (rectW rectH : ℚ)
    (p q : ℚ × ℚ) (st : LabsState) :
    handlePointerMove .move (some init) start rectW rectH p
        (handlePointerMove .move (some init) start rectW rectH q st)
      = handlePointerMove .move (some init) start rectW rectH p st := by
  simp only [handlePointerMove, List.map_map]
  congr 1
  apply List.map_congr_left
  intro o _
  by_cases h : o.id == init.id
  · cases o; simp [Function.comp, h]
  · cases o; simp [Function.comp, h]

/-- Applying a later resize of the same drag overrides an earlier one. -/
theorem resize_override (init : TextOverlay) (start : ℚ × ℚ) (rectW rectH : ℚ)
    (p q : ℚ × ℚ) (st : LabsState) :
    handlePointerMove .resize (some init) start rectW rectH p
        (handlePointerMove .resize (some init) start rectW rectH q st)
      = handlePointerMove .resize (some init) start rectW rectH p st := by
  simp only [handlePointerMove, List.map_map]
  congr 1
  apply List.map_congr_left
  intro o _
  by_cases h : o.id == init.id
  · cases o; simp [Function.comp, h]
  · cases o; simp [Function.comp, h]

/-- A later step of a drag absorbs any earlier fold of steps. -/
theorem drag_fold_absorb (m : DragMode) (init : TextOverlay) (start : ℚ × ℚ)
    (rectW rectH : ℚ) (p : ℚ × ℚ)
    (hover : ∀ (a b : ℚ × ℚ) (s : LabsState),
      handlePointerMove m (some init) start rectW rectH a
          (handlePointerMove m (some init) start rectW rectH b s)
        = handlePointerMove m (some init) start rectW rectH a s) :
    ∀ (ps : List (ℚ × ℚ)) (st : LabsState),
      handlePointerMove m (some init) start rectW rectH p
          (ps.foldl (fun s q => handlePointerMove m (some init) start rectW rectH q s) st)
        = handlePointerMove m (some init) start rectW rectH p st := by
  intro ps
  induction ps with
  | nil => intro st; rfl
  | cons q ps ih =>
    intro st
    simpa [List.foldl_cons] using (ih (handlePointerMove m (some init) start rectW rectH q st)).trans (hover p q st)

/-- C7: during dragging-move every pointer move sets the dragged overlay
to the clamped drag-start-plus-cumulative-delta position (so a whole
sequence of incremental moves ends where its last move puts it); during
dragging-resize the size is the clamped start size plus
`(dx + dy) / 2 * 0.5`; all other overlays are untouched. -/
theorem pointer_move_drag (init : TextOverlay) (start : ℚ × ℚ) (rectW rectH : ℚ)
    (st : LabsState) (ps : List (ℚ × ℚ)) (p : ℚ × ℚ)
    (hw : 0 < rectW) (hh : 0 < rectH) :
    ((ps ++ [p]).foldl (fun s q => handlePointerMove .move (some init) start rectW rectH q s) st)
        = handlePointerMove .move (some init) start rectW rectH p st
    ∧ (handlePointerMove .move (some init) start rectW rectH p st).overlays
        = st.overlays.map (fun o => if o.id = init.id then
            { o with x := max 0 (min 100 (init.x + (p.1 - start.1) / rectW * 100)),
                     y := max 0 (min 100 (init.y + (p.2 - start.2) / rectH * 100)) }
          else o)
    ∧ ((ps ++ [p]).foldl (fun s q => handlePointerMove .resize (some init) start rectW rectH q s) st)
        = handlePointerMove .resize (some init) start rectW rectH p st
    ∧ (handlePointerMove .resize (some init) start rectW rectH p st).overlays
        = st.overlays.map (fun o => if o.id = init.id then
            { o with size := max 10 (min 300 (init.size + ((p.1 - start.1) + (p.2 - start.2)) / 2 * (1/2))) }
          else o)
    ∧ (∀ o ∈ st.overlays, o.id ≠ init.id →
        o ∈ (handlePointerMove .move (some init) start rectW rectH p st).overlays
        ∧ o ∈ (handlePointerMove .resize (some init) start rectW rectH p st).overlays) := by
  have hmovemap : (handlePointerMove .move (some init) start rectW rectH p st).overlays
      = st.overlays.map (fun o => if o.id = init.id then
          { o with x := max 0 (min 100 (init.x + (p.1 - start.1) / rectW * 100)),
                   y := max 0 (min 100 (init.y + (p.2 - start.2) / rectH * 100)) }
        else o) := by
    simp only [handlePointerMove]
    apply List.map_congr_left
    intro o _
    by_cases h : o.id = init.id <;> simp [h]
  have hresizemap : (handlePointerMove .resize (some init) start rectW rectH p st).overlays
      = st.overlays.map (fun o => if o.id = init.id then
          { o with size := max 10 (min 300 (init.size + ((p.1 - start.1) + (p.2 - start.2)) / 2 * (1/2))) }
        else o) := by
    simp only [handlePointerMove]
    apply List.map_congr_left
    intro o _
    by_cases h : o.id = init.id <;> simp [h]
  refine ⟨?_, hmovemap, ?_, hresizemap, ?_⟩
  · rw [List.foldl_append, List.foldl_cons, List.foldl_nil]
    exact drag_fold_absorb .move init start rectW rectH p
      (fun a b s => move_override init start rectW rectH a b s) ps st
  · rw [List.foldl_append, List.foldl_cons, List.foldl_nil]
    exact drag_fold_absorb .resize init start rectW rectH p
      (fun a b s => resize_override init start rectW rectH a b s) ps st
  · intro o ho hne
    constructor
    · rw [hmovemap]
      exact List.mem_map.mpr ⟨o, ho, by simp [hne]⟩
    · rw [hresizemap]
      exact List.mem_map.mpr ⟨o, ho, by simp [hne]⟩

/-- C7 witness: the drag theorem applied at a concrete two-overlay state,
one incremental move, a 200 by 100 canvas. -/
theorem pointer_move_drag_witness :
    ovB ∈ (handlePointerMove .move (some ovA) (0, 0) 200 100 (20, 10) wst).overlays
    ∧ ((([((5 : ℚ), (5 : ℚ))] ++ [((20 : ℚ), (10 : ℚ))]).foldl
          (fun s q => handlePointerMove .move (some ovA) (0, 0) 200 100 q s) wst)
        = handlePointerMove .move (some ovA) (0, 0) 200 100 (20, 10) wst) :=
  ⟨((pointer_move_drag ovA (0, 0) 200 100 wst [(5, 5)] (20, 10)
      (by norm_num) (by norm_num)).2.2.2.2 ovB (by decide) (by decide)).1,
   (pointer_move_drag ovA (0, 0) 200 100 wst [(5, 5)] (20, 10)
      (by norm_num) (by norm_num)).1⟩

/-- C9 counterexample: with `grain = 100` and a noise draw of 0.9 the code
shifts an opaque grey pixel by 20 per channel (factor `(grain/100)*255*0.2`),
while the stage the specification describes (factor `grain/255*0.2`,
independent per-channel samples) cannot move any integer channel at all;
the same single draw also lands on R, G and B together, not independently. -/
theorem grain_scale_counterexample :
    grainStage 100 constNoise [⟨100, 100, 100, 255⟩] = [⟨120, 120, 120, 255⟩]
    ∧ grainStageSpec 100 constNoise [⟨100, 100, 100, 255⟩] = [⟨100, 100, 100, 255⟩] := by
  constructor <;>
    · simp [grainStage, grainStageSpec, constNoise, clampByte, rte]
      norm_num [Int.fract]
      rfl

/-- C9 (amended): the grain stage is a no-op at `grain = 0`; with
`grain > 0` it keeps fully transparent pixels unchanged and adds to each
other pixel one centered noise sample — shared by the R, G and B channels —
scaled by `(grain / 100) * 255 * 0.2`. -/
theorem grain_stage_amended (gr : ℚ) (rand : Nat → ℚ) (ps : List Pixel) :
    (gr = 0 → grainStage gr rand ps = ps)
    ∧ (grainStage gr rand ps).length = ps.length
    ∧ ∀ i : Nat, ∀ hi : i < ps.length,
        (0 < gr → (ps.get ⟨i, hi⟩).a = 0 →
          (grainStage gr rand ps)[i]? = some (ps.get ⟨i, hi⟩))
        ∧ (0 < gr → (ps.get ⟨i, hi⟩).a ≠ 0 →
          (grainStage gr rand ps)[i]? = some
            { ps.get ⟨i, hi⟩ with
              r := clampByte ((ps.get ⟨i, hi⟩).r + (rand i - 1/2) * (gr / 100 * 255 * (1/5))),
              g := clampByte ((ps.get ⟨i, hi⟩).g + (rand i - 1/2) * (gr / 100 * 255 * (1/5))),
              b := clampByte ((ps.get ⟨i, hi⟩).b + (rand i - 1/2) * (gr / 100 * 255 * (1/5))) }) := by
  refine ⟨?_, ?_, ?_⟩
  · intro h; simp [grainStage, h]
  · by_cases h : 0 < gr <;> simp [grainStage, h]
  · intro i hi
    have hget : ps.get ⟨i, hi⟩ = ps[i] := rfl
    by_cases h : 0 < gr
    · constructor
      · intro _ ha
        rw [hget] at ha ⊢
        simp [grainStage, h, List.getElem?_map, List.getElem?_enum,
          List.getElem?_eq_getElem hi, ha]
      · intro _ ha
        rw [hget] at ha ⊢
        simp [grainStage, h, List.getElem?_map, List.getElem?_enum,
          List.getElem?_eq_getElem hi, ha]
    · exact ⟨fun hg => absurd hg h, fun hg => absurd hg h⟩

/-- C10: every block produced by the untrusted-import normalizer is
active, whatever the incoming data said; importing two raw blocks of the
single-instance Background type therefore yields two simultaneously
active Background blocks. -/
theorem import_forces_active :
    (∀ (now : Nat) (raws : List RawBlock) (b : BlockState),
        b ∈ parseRawBlocksToState now raws → b.isActive = true)
    ∧ (parseRawBlocksToState 0 [rawBackground, rawBackground]).countP (activeOfType .background) = 2
    ∧ (BLOCK_DEFINITIONS .background).singleActiveInstance = true := by
  refine ⟨?_, by rfl, rfl⟩
  intro now raws b hb
  simp only [parseRawBlocksToState, List.mem_filterMap, List.mem_map, Option.map_eq_some'] at hb
  obtain ⟨pb, ⟨⟨idx, rb⟩, _, hpb⟩, t, _, hbt⟩ := hb
  have : pb.isActive = true := by rw [← hpb]; rfl
  rw [← hbt]
  exact this

/-- C8 counterexample: change descriptions live in a string set, so three
independently modified blocks sharing the smart label `Hero` collapse to
the single description `Modified Hero`, not `3 Changes (e.g. ...)`. -/
theorem change_summary_counterexample :
    getChangeSummary
        [heroBlock "h1" true, heroBlock "h2" true, heroBlock "h3" true]
        [heroBlock "h1" false, heroBlock "h2" false, heroBlock "h3" false]
      = "Modified Hero"
    ∧ "Modified Hero" ≠ "3 Changes (e.g. Modified Hero)" := by
  exact ⟨by rfl, by decide⟩

/-- C8 (amended): the summary renders the insertion-ordered deduplicated
set of change descriptions — `Added`/`Removed`/`Modified` computed by id
and structural inequality — as `Regenerated` when empty, the sole entry,
a two-entry comma join, or `N Changes (e.g. <first>)`; in particular three
modifications with pairwise distinct smart labels render as
`3 Changes (e.g. Modified <first label>)`. -/
theorem change_summary_amended :
    (∀ b : BlockState, getChangeSummary [] [b] = "Added " ++ getSmartLabel b)
    ∧ (∀ bs : List BlockState, (bs.map fun x => x.id).Nodup →
        getChangeSummary bs bs = "Regenerated")
    ∧ (∀ a b c a2 b2 c2 : BlockState,
        a2.id = a.id → b2.id = b.id → c2.id = c.id →
        a.id ≠ b.id → a.id ≠ c.id → b.id ≠ c.id →
        blockModified a a2 = true → blockModified b b2 = true → blockModified c c2 = true →
        getSmartLabel a2 ≠ getSmartLabel b2 → getSmartLabel a2 ≠ getSmartLabel c2 →
        getSmartLabel b2 ≠ getSmartLabel c2 →
        getChangeSummary [a, b, c] [a2, b2, c2]
          = "3 Changes (e.g. Modified " ++ getSmartLabel a2 ++ ")") := by
  refine ⟨?_, ?_, ?_⟩
  · intro b
    rfl
  · intro bs hnd
    have h1 : ∀ (b : BlockState) (acc2 : List String), b ∈ bs →
        (if (jsMapGet bs b.id).isNone then addChange acc2 ("Added " ++ getSmartLabel b)
         else acc2) = acc2 := by
      intro b acc2 hb
      simp [jsMapGet_self hnd hb]
    have h2 : ∀ (b : BlockState) (acc2 : List String), b ∈ bs →
        (if (jsMapGet bs b.id).isNone then addChange acc2 ("Removed " ++ getSmartLabel b)
         else acc2) = acc2 := by
      intro b acc2 hb
      simp [jsMapGet_self hnd hb]
    have h3 : ∀ (b : BlockState) (acc2 : List String), b ∈ bs →
        (match jsMapGet bs b.id with
         | some old => if blockModified old b then addChange acc2 ("Modified " ++ getSmartLabel b) else acc2
         | none => acc2) = acc2 := by
      intro b acc2 hb
      rw [jsMapGet_self hnd hb]
      simp [blockModified_self]
    have hdesc : changeDescriptions bs bs = [] := by
      simp only [changeDescriptions]
      rw [foldl_fixed h3, foldl_fixed h2, foldl_fixed h1]
    simp [getChangeSummary, hdesc]
  · intro a b c a2 b2 c2 ha2 hb2 hc2 hab hac hbc hma hmb hmc hl1 hl2 hl3
    have hba : b.id ≠ a.id := Ne.symm hab
    have hca : c.id ≠ a.id := Ne.symm hac
    have hcb : c.id ≠ b.id := Ne.symm hbc
    have gA : jsMapGet [a, b, c] a2.id = some a := by simp [jsMapGet, ha2, hba, hca]
    have gB : jsMapGet [a, b, c] b2.id = some b := by simp [jsMapGet, hb2, hab, hcb]
    have gC : jsMapGet [a, b, c] c2.id = some c := by simp [jsMapGet, hc2, hac, hbc]
    have gA2 : jsMapGet [a2, b2, c2] a.id = some a2 := by
      simp [jsMapGet, ha2, hb2, hc2, hba, hca]
    have gB2 : jsMapGet [a2, b2, c2] b.id = some b2 := by
      simp [jsMapGet, ha2, hb2, hc2, hab, hcb]
    have gC2 : jsMapGet [a2, b2, c2] c.id = some c2 := by
      simp [jsMapGet, ha2, hb2, hc2, hac, hbc]
    have hM1 : ("Modified " ++ getSmartLabel b2) ≠ ("Modified " ++ getSmartLabel a2) :=
      fun h => hl1 (string_append_left_cancel h).symm
    have hM2 : ("Modified " ++ getSmartLabel c2) ≠ ("Modified " ++ getSmartLabel a2) :=
      fun h => hl2 (string_append_left_cancel h).symm
    have hM3 : ("Modified " ++ getSmartLabel c2) ≠ ("Modified " ++ getSmartLabel b2) :=
      fun h => hl3 (string_append_left_cancel h).symm
    have hdesc : changeDescriptions [a, b, c] [a2, b2, c2] =
        ["Modified " ++ getSmartLabel a2, "Modified " ++ getSmartLabel b2,
         "Modified " ++ getSmartLabel c2] := by
      simp [changeDescriptions, gA, gB, gC, gA2, gB2, gC2, hma, hmb, hmc,
        addChange, hM1, hM2, hM3]
    simp only [getChangeSummary, hdesc]
    simp only [List.length_cons, List.length_nil]
    rfl

/-- C8 witness: the change-summary cases at concrete blocks. -/
theorem change_summary_amended_witness :
    getChangeSummary [] [hImp "h1" "HeroA" true] = "Added " ++ getSmartLabel (hImp "h1" "HeroA" true)
    ∧ getChangeSummary [hImp "h1" "HeroA" true] [hImp "h1" "HeroA" true] = "Regenerated"
    ∧ getChangeSummary
        [hImp "h1" "HeroA" true, hImp "h2" "HeroB" true, hImp "h3" "HeroC" true]
        [hImp "h1" "HeroA" false, hImp "h2" "HeroB" false, hImp "h3" "HeroC" false]
      = "3 Changes (e.g. Modified " ++ getSmartLabel (hImp "h1" "HeroA" false) ++ ")" :=
  ⟨change_summary_amended.1 (hImp "h1" "HeroA" true),
   change_summary_amended.2.1 [hImp "h1" "HeroA" true] (by decide),
   change_summary_amended.2.2
     (hImp "h1" "HeroA" true) (hImp "h2" "HeroB" true) (hImp "h3" "HeroC" true)
     (hImp "h1" "HeroA" false) (hImp "h2" "HeroB" false) (hImp "h3" "HeroC" false)
     rfl rfl rfl (by decide) (by decide) (by decide)
     (by decide) (by decide) (by decide) (by decide) (by decide) (by decide)⟩

/-- Association lookup over a keyed map of a list with distinct keys. -/
theorem alookup_keyed {α β : Type} (key : α → String) (F : α → β) (l : List α) (x : α)
    (hx : x ∈ l) (hnd : (l.map key).Nodup) :
    alookup (l.map fun a => (key a, F a)) (key x) = some (F x) := by
  induction l with
  | nil => cases hx
  | cons c rest ih =>
    simp only [List.map_cons, List.nodup_cons] at hnd
    rcases List.mem_cons.mp hx with rfl | hxr
    · simp [alookup]
    · have hne : key c ≠ key x := fun he =>
        hnd.1 (by rw [he]; exact List.mem_map.mpr ⟨x, hxr, rfl⟩)
      have hbeq : (key c == key x) = false := by simpa using hne
      simp only [alookup, List.map_cons, List.find?, hbeq]
      exact ih hxr hnd.2

/-- The length of a `filterMap` counts the inputs mapped to `some`. -/
theorem length_filterMap_eq_countP {α β : Type} (f : α → Option β) (l : List α) :
    (l.filterMap f).length = l.countP fun a => (f a).isSome := by
  induction l with
  | nil => rfl
  | cons c rest ih =>
    cases hc : f c <;>
      simp [List.filterMap_cons, hc, List.countP_cons, ih]

/-- Counting over an enumeration by a predicate on the payloads. -/
theorem countP_enumFrom {α : Type} (q : α → Bool) :
    ∀ (n : Nat) (l : List α),
      (List.enumFrom n l).countP (fun p => q p.2) = l.countP q := by
  intro n l
  induction l generalizing n with
  | nil => rfl
  | cons c rest ih =>
    simp [List.enumFrom, List.countP_cons, ih]

/-- Section ids are distinct within every block definition. -/
theorem schema_section_ids_nodup :
    ∀ t : BlockType, ((BLOCK_DEFINITIONS t).sections.map fun s => s.id).Nodup := by
  intro t; cases t <;> decide

/-- Field ids are distinct within every schema section. -/
theorem schema_field_ids_nodup :
    ∀ t : BlockType, ∀ sd ∈ (BLOCK_DEFINITIONS t).sections,
      (sd.fields.map fun f => f.id).Nodup := by
  intro t; cases t <;> decide

/-- C6 counterexample: a numeric value supplied for the text field
`core.role` is kept verbatim by the import normalizer instead of being
replaced by the schema default (the empty string). -/
theorem import_mistyped_counterexample :
    (parseRawBlocksToState 0 [rbMistyped]).map (fun b => b.fieldVal "core" "role")
      = [some (Val.vInt 42)]
    ∧ (((BLOCK_DEFINITIONS .subject).sections.find? fun sd => sd.id == "core").bind
        fun sd => sd.fields.find? fun f => f.id == "role")
      = some { id := "role", label := "Description/Role", ftype := .text,
               defaultValue := .vStr "" } := by
  exact ⟨rfl, rfl⟩

/-- C6 (amended): the import normalizer discards exactly the raw blocks
with unrecognized type strings; for a recognized block every schema
section and field is present, holding the incoming value when it exists
and is non-nullish and the schema default otherwise (mistyped non-null
values pass through unchanged — see the counterexample). -/
theorem import_normalizes_amended :
    (∀ (now : Nat) (raws : List RawBlock),
        (parseRawBlocksToState now raws).length
          = (raws.filter fun rb => (strToBlockType rb.type).isSome).length)
    ∧ (∀ (now : Nat) (rb : RawBlock), strToBlockType rb.type = none →
        parseRawBlocksToState now [rb] = [])
    ∧ (∀ (now : Nat) (rb : RawBlock) (t : BlockType), strToBlockType rb.type = some t →
        ∀ b ∈ parseRawBlocksToState now [rb],
          b.type = t ∧
          ∀ sd ∈ (BLOCK_DEFINITIONS t).sections, ∀ f ∈ sd.fields,
            b.fieldVal sd.id f.id
              = some (nullishGetD
                  ((alookup rb.sections sd.id).bind fun s => alookup s.fields f.id)
                  f.defaultValue)) := by
  refine ⟨?_, ?_, ?_⟩
  · intro now raws
    rw [parseRawBlocksToState, length_filterMap_eq_countP, List.countP_map,
      ← List.countP_eq_length_filter]
    show (List.enumFrom 0 raws).countP _ = _
    rw [← countP_enumFrom (fun rb => (strToBlockType rb.type).isSome) 0 raws]
    apply List.countP_congr
    intro p _
    simp [Function.comp, parseOneRaw]
  · intro now rb h
    simp [parseRawBlocksToState, parseOneRaw, h]
  · intro now rb t ht b hb
    simp only [parseRawBlocksToState, List.enum, List.enumFrom, List.map_cons, List.map_nil,
      List.filterMap_cons, List.filterMap_nil, parseOneRaw, ht, Option.map_some'] at hb
    rcases List.mem_singleton.mp hb with rfl
    refine ⟨rfl, ?_⟩
    intro sd hsd f hf
    show (alookup (safeSections rb.type rb) sd.id).bind _ = _
    rw [safeSections, ht]
    rw [alookup_keyed (fun sd => sd.id)
      (fun sd => { enabled := if sd.toggleable then
                      some (((alookup rb.sections sd.id).bind fun s => s.enabled).getD false)
                    else none,
                   fields := sd.fields.map fun f =>
                     (f.id, nullishGetD ((alookup rb.sections sd.id).bind fun s =>
                        alookup s.fields f.id) f.defaultValue) } : BlockSectionDefinition → SectionState)
      _ sd hsd (schema_section_ids_nodup t)]
    show alookup (sd.fields.map fun f => (f.id, _)) f.id = _
    rw [alookup_keyed (fun f => f.id)
      (fun f => nullishGetD ((alookup rb.sections sd.id).bind fun s =>
        alookup s.fields f.id) f.defaultValue)
      _ f hf (schema_field_ids_nodup t sd hsd)]

/-- C6 witness: the normalizer theorem applied at a bogus-typed raw block
and at the mistyped Subject raw block. -/
theorem import_normalizes_amended_witness :
    parseRawBlocksToState 0 [rbBogus] = []
    ∧ bMist.type = BlockType.subject :=
  ⟨import_normalizes_amended.2.1 0 rbBogus rfl,
   (import_normalizes_amended.2.2 0 rbMistyped .subject rfl bMist (by decide)).1⟩

/-- A string starting with an opening bracket is not the isolation
directive. -/
theorem bracket_ne_isolation (r : String) : "[" ++ r ≠ isolationDirective := by
  intro h
  have h2 : ("[" ++ r).data.head? = isolationDirective.data.head? := by rw [h]
  have h3 : (some '[' : Option Char) = some 'I' := h2
  exact absurd h3 (by decide)

/-- A style directive is not the isolation directive. -/
theorem style_ne_isolation (b : String) : "Style: " ++ b ++ "." ≠ isolationDirective := by
  intro h
  have h2 : ("Style: " ++ b ++ ".").data.head? = isolationDirective.data.head? := by rw [h]
  have h3 : (some 'S' : Option Char) = some 'I' := h2
  exact absurd h3 (by decide)

/-- Dissect a guarded `some` value. -/
theorem ite_some_eq_some {α : Type} {c : Prop} [Decidable c] {x : α} {p : α}
    (h : (if c then some x else none) = some p) : p = x := by
  split at h
  · injection h with h2
    exact h2.symm
  · cases h

/-- A sixfold appended string headed by a bracket. -/
theorem exists_bracket (s1 s2 s3 s4 s5 s6 : String) :
    ∃ r, "[" ++ s1 ++ s2 ++ s3 ++ s4 ++ s5 ++ s6 = "[" ++ r :=
  ⟨s1 ++ (s2 ++ (s3 ++ (s4 ++ (s5 ++ s6)))), by simp [String.append_assoc]⟩

/-- Every clause `renderBlock` emits carries its block type and opens with
a bracket. -/
theorem renderBlock_clause_bracket (sorted : List BlockState) (ar : String)
    (b : BlockState) (p : BlockType × String) (h : renderBlock sorted ar b = some p) :
    p.1 = b.type ∧ ∃ r, p.2 = "[" ++ r := by
  simp only [renderBlock] at h
  have hp := ite_some_eq_some h
  constructor
  · rw [hp]
  · rw [hp]
    exact exists_bracket _ _ _ _ _ _

/-- C1 counterexample: a Background block whose transparency section is
toggled off but whose `remove_bg` field is true still makes the compiler
emit the isolation directive (the claim says the toggle must be on). -/
theorem isolation_toggle_counterexample :
    ((alookup cxBackground.sections "transparency").map fun ss => ss.enabled)
      = some (some false)
    ∧ isolationDirective ∈ constructPromptParts [cxBackground] "" false [] "" := by
  exact ⟨rfl, by decide⟩

/-- C1 (amended): the compiler prepends the isolation directive exactly
when the first active Background block of the processed list has its
`transparency.remove_bg` field equal to `true` — the section's `enabled`
toggle is not consulted — and the directive then sits directly after the
optional style prefix. -/
theorem isolation_directive_amended (localBlocks : List BlockState) (baseStyle : String)
    (useBaseStyle : Bool) (globalBlocks : List BlockState) (aspectRatio : String) :
    (isolationDirective ∈
        constructPromptParts localBlocks baseStyle useBaseStyle globalBlocks aspectRatio
      ↔ transparencyFlag (blocksToProcess localBlocks useBaseStyle globalBlocks) = true)
    ∧ (transparencyFlag (blocksToProcess localBlocks useBaseStyle globalBlocks) = true →
        (constructPromptParts localBlocks baseStyle useBaseStyle globalBlocks aspectRatio)[
            if useBaseStyle ∧ baseStyle ≠ "" then 1 else 0]? = some isolationDirective)
    ∧ (∀ bg : BlockState,
        (blocksToProcess localBlocks useBaseStyle globalBlocks).find?
            (fun b => decide (b.type = .background) && b.isActive) = some bg →
        (transparencyFlag (blocksToProcess localBlocks useBaseStyle globalBlocks) = true
          ↔ bg.fieldVal "transparency" "remove_bg" = some (.vBool true))) := by
  have hsty : ∀ s ∈ (if useBaseStyle ∧ baseStyle ≠ ""
      then ["Style: " ++ baseStyle ++ "."] else ([] : List String)),
      s ≠ isolationDirective := by
    intro s hs
    split at hs
    · rw [List.mem_singleton.mp hs]
      exact style_ne_isolation baseStyle
    · cases hs
  have hcl : ∀ s ∈ (constructPromptClauses localBlocks useBaseStyle globalBlocks
      aspectRatio).map (fun c => c.2), s ≠ isolationDirective := by
    intro s hs
    rcases List.mem_map.mp hs with ⟨p, hp, rfl⟩
    rcases List.mem_filterMap.mp hp with ⟨b, _, hrb⟩
    rcases (renderBlock_clause_bracket _ _ _ _ hrb).2 with ⟨r, hr⟩
    rw [hr]
    exact bracket_ne_isolation r
  refine ⟨⟨?_, ?_⟩, ?_, ?_⟩
  · intro h
    by_cases hf : transparencyFlag (blocksToProcess localBlocks useBaseStyle globalBlocks) = true
    · exact hf
    · exfalso
      simp only [constructPromptParts, hf, if_false, Bool.false_eq_true,
        List.append_nil, List.nil_append, List.mem_append] at h
      rcases h with h1 | h2
      · exact hsty _ h1 rfl
      · exact hcl _ h2 rfl
  · intro hf
    simp [constructPromptParts, hf]
  · intro hf
    by_cases hs : useBaseStyle = true ∧ baseStyle ≠ ""
    · rcases hs with ⟨hu, hbs⟩
      subst hu
      simp [constructPromptParts, hf, hbs]
    · simp [constructPromptParts, hf, hs]
  · intro bg hfind
    simp [transparencyFlag, hfind, BlockState.fieldVal]

/-- C1 witness: the amended isolation rule applied at the concrete
toggled-off Background block. -/
theorem isolation_directive_amended_witness :
    (constructPromptParts [cxBackground] "" false [] "")[0]? = some isolationDirective
    ∧ (transparencyFlag (blocksToProcess [cxBackground] false []) = true
        ↔ cxBackground.fieldVal "transparency" "remove_bg" = some (.vBool true)) :=
  ⟨(isolation_directive_amended [cxBackground] "" false [] "").2.1 (by decide),
   (isolation_directive_amended [cxBackground] "" false [] "").2.2 cxBackground (by decide)⟩

/-- Fail-closed core: a cross-block condition with no active controlling
block hides the section. -/
theorem sectionVisible_no_controller
    (allBlocks : List BlockState) (block : BlockState)
    (defSections : List BlockSectionDefinition) (sid : String) (ss : SectionState)
    (sd : BlockSectionDefinition) (c : Condition) (t : BlockType)
    (hfind : defSections.find? (fun d => d.id == sid) = some sd)
    (hcond : sd.condition = some c)
    (hbt : c.blockType = some t)
    (hno : ∀ b ∈ allBlocks, b.type = t → b.isActive = false) :
    isSectionVisible allBlocks block defSections sid ss = false := by
  have hnone : allBlocks.find? (fun b => decide (b.type = t) && b.isActive) = none := by
    rw [List.find?_eq_none]
    intro b hb
    by_cases hbty : b.type = t
    · simp [hbty, hno b hb hbty]
    · simp [hbty]
  simp only [isSectionVisible, hfind, hcond, hbt, hnone]
  split <;> rfl

/-- C4: a section whose condition names a block type with no active
instance is never visible, whatever the owning block holds; with a
controlling block found and the toggle not off, visibility is exactly the
scalar-equality or set-membership match; concretely, a Mood block's
Subject-conditioned emotion section contributes nothing to the compiled
prompt whatever its fields hold. -/
theorem section_visibility_fail_closed :
    (∀ (allBlocks : List BlockState) (block : BlockState)
        (defSections : List BlockSectionDefinition) (sid : String) (ss : SectionState)
        (sd : BlockSectionDefinition) (c : Condition) (t : BlockType),
        defSections.find? (fun d => d.id == sid) = some sd →
        sd.condition = some c →
        c.blockType = some t →
        (∀ b ∈ allBlocks, b.type = t → b.isActive = false) →
        isSectionVisible allBlocks block defSections sid ss = false)
    ∧ (∀ (allBlocks : List BlockState) (block : BlockState)
        (defSections : List BlockSectionDefinition) (sid : String) (ss : SectionState)
        (sd : BlockSectionDefinition) (c : Condition) (t : BlockType) (cb : BlockState),
        defSections.find? (fun d => d.id == sid) = some sd →
        sd.condition = some c →
        c.blockType = some t →
        allBlocks.find? (fun b => decide (b.type = t) && b.isActive) = some cb →
        (sd.toggleable = true → ss.enabled = some true) →
        (isSectionVisible allBlocks block defSections sid ss = true ↔ condValueMatches c cb))
    ∧ (∀ v w : Val,
        constructPromptFromBlocks [mkMoodBlock v] "" false [] ""
          = constructPromptFromBlocks [mkMoodBlock w] "" false [] "") := by
  refine ⟨?_, ?_, ?_⟩
  · intro allBlocks block defSections sid ss sd c t hfind hcond hbt hno
    exact sectionVisible_no_controller allBlocks block defSections sid ss sd c t
      hfind hcond hbt hno
  · intro allBlocks block defSections sid ss sd c t cb hfind hcond hbt hcb htog
    have hguard : (sd.toggleable && !(ss.enabled.getD false)) = false := by
      cases h2 : sd.toggleable
      · rfl
      · simp [htog h2]
    simp only [isSectionVisible, hfind, hcond, hbt, hcb, hguard, Bool.false_eq_true,
      if_false, condValueMatches, BlockState.fieldVal]
    rcases c with ⟨bt, csid, cfid, cv⟩
    rcases cv with s | items <;> simp
  · intro v w
    have hemo : ∀ u : Val, isSectionVisible [mkMoodBlock u] (mkMoodBlock u)
        (BLOCK_DEFINITIONS BlockType.mood).sections "emotion"
        { enabled := none, fields := [("primary", u), ("intensity", .vInt 50)] } = false := by
      intro u
      refine sectionVisible_no_controller _ _ _ _ _ _ _ BlockType.subject rfl rfl rfl ?_
      intro b hb hty
      rcases List.mem_singleton.mp hb with rfl
      have h0 : (mkMoodBlock u).type = BlockType.mood := rfl
      rw [h0] at hty
      exact absurd hty (by decide)
    have hatm : ∀ u : Val, isSectionVisible [mkMoodBlock u] (mkMoodBlock u)
        (BLOCK_DEFINITIONS BlockType.mood).sections "atmosphere"
        { enabled := none, fields := [("vibe", .vStr "Calm")] } = true := fun u => rfl
    simp only [constructPromptFromBlocks, constructPromptParts, constructPromptClauses,
      blocksToProcess, transparencyFlag, sortBlocks, insertByPriority, renderBlock,
      mkMoodBlock, List.filter_cons, List.filter_nil]
    simp only [mkMoodBlock] at hemo hatm
    simp only [List.filterMap_cons, List.filterMap_nil, renderBlock,
      List.filter_cons, List.filter_nil, hemo v, hemo w, hatm v, hatm w,
      Bool.false_eq_true, if_false, if_true]
    rfl

/-- C4 witness: fail-closed visibility, the match characterization, and
the concrete no-contribution equality, all at concrete blocks. -/
theorem section_visibility_fail_closed_witness :
    isSectionVisible [mkMoodBlock (Val.vStr "Happy")] (mkMoodBlock (Val.vStr "Happy"))
        (BLOCK_DEFINITIONS BlockType.mood).sections "emotion"
        { enabled := none, fields := [("primary", Val.vStr "Happy"), ("intensity", Val.vInt 50)] }
      = false
    ∧ (isSectionVisible [subjDetective, mkMoodBlock (Val.vStr "Happy")]
          (mkMoodBlock (Val.vStr "Happy"))
          (BLOCK_DEFINITIONS BlockType.mood).sections "emotion"
          { enabled := none, fields := [("primary", Val.vStr "Happy"), ("intensity", Val.vInt 50)] }
        = true
      ↔ condValueMatches
          ⟨some .subject, "core", "category", .strSet ["Human", "Animal", "Creature", "Robot"]⟩
          subjDetective)
    ∧ constructPromptFromBlocks [mkMoodBlock (Val.vStr "Happy")] "" false [] ""
        = constructPromptFromBlocks [mkMoodBlock (Val.vInt 7)] "" false [] "" :=
  ⟨section_visibility_fail_closed.1 _ _ _ _ _ _ _ BlockType.subject rfl rfl rfl (by decide),
   section_visibility_fail_closed.2.1 _ _ _ _ _ _ _ BlockType.subject subjDetective
     rfl rfl rfl (by decide) (by decide),
   section_visibility_fail_closed.2.2 (Val.vStr "Happy") (Val.vInt 7)⟩

/-- Insertion adds exactly the inserted element. -/
theorem mem_insertByPriority {x b : BlockState} {l : List BlockState} :
    x ∈ insertByPriority b l ↔ x = b ∨ x ∈ l := by
  induction l with
  | nil => simp [insertByPriority]
  | cons c cs ih =>
    rw [insertByPriority]
    split
    · simp only [List.mem_cons, ih]
      tauto
    · simp only [List.mem_cons]

/-- Insertion preserves sortedness by the priority key. -/
theorem insertByPriority_pairwise (b : BlockState) (l : List BlockState)
    (h : l.Pairwise fun x y => TYPE_PRIORITY x.type ≤ TYPE_PRIORITY y.type) :
    (insertByPriority b l).Pairwise fun x y => TYPE_PRIORITY x.type ≤ TYPE_PRIORITY y.type := by
  induction l with
  | nil => simp [insertByPriority]
  | cons c cs ih =>
    rw [List.pairwise_cons] at h
    rw [insertByPriority]
    split
    · rw [List.pairwise_cons]
      refine ⟨?_, ih h.2⟩
      intro x hx
      rcases mem_insertByPriority.mp hx with rfl | hxc
      · omega
      · exact h.1 x hxc
    · rw [List.pairwise_cons]
      refine ⟨?_, List.pairwise_cons.mpr h⟩
      intro x hx
      rcases List.mem_cons.mp hx with rfl | hxc
      · omega
      · exact le_trans (by omega) (h.1 x hxc)

/-- The embedded sort is sorted by the priority table. -/
theorem sortBlocks_pairwise (l : List BlockState) :
    (sortBlocks l).Pairwise fun x y => TYPE_PRIORITY x.type ≤ TYPE_PRIORITY y.type := by
  induction l with
  | nil => simp [sortBlocks]
  | cons b bs ih => exact insertByPriority_pairwise b (sortBlocks bs) ih

/-- Filtering one priority class through an insertion. -/
theorem filter_insertByPriority (b : BlockState) (l : List BlockState) (q : Nat) :
    (insertByPriority b l).filter (fun c => TYPE_PRIORITY c.type == q)
      = if TYPE_PRIORITY b.type = q
        then b :: l.filter (fun c => TYPE_PRIORITY c.type == q)
        else l.filter (fun c => TYPE_PRIORITY c.type == q) := by
  induction l with
  | nil =>
    rw [insertByPriority]
    by_cases hbq : TYPE_PRIORITY b.type = q <;> simp [hbq]
  | cons c cs ih =>
    rw [insertByPriority]
    split
    · rename_i hlt
      by_cases hcq : TYPE_PRIORITY c.type = q
      · have hbq : TYPE_PRIORITY b.type ≠ q := by omega
        simp [List.filter_cons, hcq, hbq, ih]
      · by_cases hbq : TYPE_PRIORITY b.type = q <;>
          simp [List.filter_cons, hcq, hbq, ih]
    · by_cases hbq : TYPE_PRIORITY b.type = q <;>
        by_cases hcq : TYPE_PRIORITY c.type = q <;>
          simp [List.filter_cons, hbq, hcq]

/-- Stability: each priority class keeps its original relative order. -/
theorem sortBlocks_stable (l : List BlockState) (q : Nat) :
    (sortBlocks l).filter (fun c => TYPE_PRIORITY c.type == q)
      = l.filter (fun c => TYPE_PRIORITY c.type == q) := by
  induction l with
  | nil => rfl
  | cons b bs ih =>
    rw [sortBlocks, filter_insertByPriority]
    by_cases hbq : TYPE_PRIORITY b.type = q <;>
      simp [hbq, ih, List.filter_cons]

/-- A pairwise relation survives `filterMap` along a pointwise transfer. -/
theorem pairwise_filterMap_of_pairwise {α β : Type} {R : α → α → Prop} {S : β → β → Prop}
    (f : α → Option β) {l : List α} (hl : l.Pairwise R)
    (h : ∀ a b x y, R a b → f a = some x → f b = some y → S x y) :
    (l.filterMap f).Pairwise S := by
  induction l with
  | nil => simp
  | cons c cs ih =>
    rw [List.pairwise_cons] at hl
    rw [List.filterMap_cons]
    cases hfc : f c with
    | none => exact ih hl.2
    | some x =>
      rw [List.pairwise_cons]
      refine ⟨?_, ih hl.2⟩
      intro y hy
      rcases List.mem_filterMap.mp hy with ⟨b, hb, hfb⟩
      exact h c b x y (hl.1 b hb) hfc hfb

set_option maxRecDepth 100000 in
/-- C5: the compiler sorts clauses by the fixed priority table (Subject,
Camera, Lighting, Background, Effects, Style, Post-processing, Mood),
stably — each priority class keeps its original order — so no Background
clause ever precedes a Subject clause; the specification scenario string
comes out with the Subject clause first. -/
theorem prompt_priority_order :
    (TYPE_PRIORITY .subject < TYPE_PRIORITY .camera
      ∧ TYPE_PRIORITY .camera < TYPE_PRIORITY .lighting
      ∧ TYPE_PRIORITY .lighting < TYPE_PRIORITY .background
      ∧ TYPE_PRIORITY .background < TYPE_PRIORITY .fx
      ∧ TYPE_PRIORITY .fx < TYPE_PRIORITY .style
      ∧ TYPE_PRIORITY .style < TYPE_PRIORITY .postProcessing
      ∧ TYPE_PRIORITY .postProcessing < TYPE_PRIORITY .mood)
    ∧ (∀ l : List BlockState,
        (sortBlocks l).Pairwise fun a b => TYPE_PRIORITY a.type ≤ TYPE_PRIORITY b.type)
    ∧ (∀ (l : List BlockState) (q : Nat),
        (sortBlocks l).filter (fun c => TYPE_PRIORITY c.type == q)
          = l.filter (fun c => TYPE_PRIORITY c.type == q))
    ∧ (∀ (localBlocks : List BlockState) (useBaseStyle : Bool)
        (globalBlocks : List BlockState) (aspectRatio : String),
        (constructPromptClauses localBlocks useBaseStyle globalBlocks aspectRatio).Pairwise
          fun c d => ¬(c.1 = BlockType.background ∧ d.1 = BlockType.subject))
    ∧ constructPromptFromBlocks [subjDetective, bgAlley] "" false [] "1:1"
        = "[Subject - The Subject]: Type: Human, Number: Single, Description/Role: Detective | Position: Perfectly Centered in the middle of the frame, Visual Scale: Subject occupies approx 80% of the image frame, Depth: Mid-ground | Gender: Female, Physique: Average, Hair Color: #000000 | Fashion Style: Casual | Angle: Front. [Background & Atmosphere - The Subject]: Type: Outdoor, Setting: Rain-soaked alley, Time: Day" := by
  refine ⟨by decide, sortBlocks_pairwise, sortBlocks_stable, ?_, by decide⟩
  intro localBlocks useBaseStyle globalBlocks aspectRatio
  unfold constructPromptClauses
  apply pairwise_filterMap_of_pairwise
  · exact (sortBlocks_pairwise (blocksToProcess localBlocks useBaseStyle globalBlocks)).sublist
      (List.filter_sublist _)
  · intro a b x y hR hfa hfb hxy
    have ha : a.type = BlockType.background :=
      ((renderBlock_clause_bracket _ _ _ _ hfa).1).symm.trans hxy.1
    have hb : b.type = BlockType.subject :=
      ((renderBlock_clause_bracket _ _ _ _ hfb).1).symm.trans hxy.2
    rw [ha, hb] at hR
    exact absurd hR (by decide)

/-- Deactivating all actives of one type zeroes that count and leaves the
other types' counts alone. -/
theorem countP_deactivate (t ty : BlockType) (blocks : List BlockState) :
    (blocks.map fun b =>
        if decide (b.type = ty) && b.isActive then { b with isActive := false } else b).countP
      (activeOfType t)
      = if t = ty then 0 else blocks.countP (activeOfType t) := by
  rw [List.countP_map]
  by_cases hty : t = ty
  · subst hty
    rw [if_pos rfl]
    rw [List.countP_eq_zero]
    intro b _
    by_cases h1 : decide (b.type = t) && b.isActive
    · simp only [Function.comp, h1, if_true, activeOfType]
      simp
    · simp only [Function.comp, h1, if_false, Bool.false_eq_true, activeOfType]
      simpa [activeOfType] using h1
  · rw [if_neg hty]
    apply List.countP_congr
    intro b _
    by_cases h1 : decide (b.type = ty) && b.isActive
    · have h2 : b.type = ty ∧ b.isActive = true := by simpa using h1
      have hty2 : ¬ (ty = t) := fun h => hty h.symm
      simp [Function.comp, h1, activeOfType, h2.1, h2.2, hty2]
    · simp [Function.comp, h1]

/-- The deactivation map keeps every id. -/
theorem map_id_deactivate (ty : BlockType) (blocks : List BlockState) :
    (blocks.map fun b =>
        if decide (b.type = ty) && b.isActive then { b with isActive := false } else b).map
      (fun b => b.id) = blocks.map fun b => b.id := by
  rw [List.map_map]
  apply List.map_congr_left
  intro b _
  by_cases h1 : decide (b.type = ty) && b.isActive <;> simp [Function.comp, h1]

/-- With distinct ids a list holds at most one block of any given id. -/
theorem countP_id_le_one (blocks : List BlockState) (x : String)
    (hnd : (blocks.map fun b => b.id).Nodup) :
    blocks.countP (fun b => b.id == x) ≤ 1 := by
  induction blocks with
  | nil => simp
  | cons c rest ih =>
    simp only [List.map_cons, List.nodup_cons] at hnd
    rw [List.countP_cons]
    by_cases hc : c.id = x
    · have hz : rest.countP (fun b => b.id == x) = 0 := by
        rw [List.countP_eq_zero]
        intro b hb
        simp only [beq_iff_eq]
        intro hbid
        exact hnd.1 (List.mem_map.mpr ⟨b, hb, hbid.trans hc.symm⟩)
      simp [hz, hc]
    · simp only [beq_iff_eq, hc]
      simpa using ih hnd.2

/-- With distinct ids, a member sharing the id of a member is that
member. -/
theorem eq_of_mem_of_id_eq {blocks : List BlockState} {target b : BlockState}
    (hnd : (blocks.map fun x => x.id).Nodup) (ht : target ∈ blocks) (hb : b ∈ blocks)
    (hid : b.id = target.id) : b = target :=
  List.inj_on_of_nodup_map hnd hb ht hid

/-- Counting through a splice insertion. -/
theorem countP_listInsertAt (p : BlockState → Bool) (l : List BlockState) (n : Nat)
    (a : BlockState) :
    (listInsertAt l n a).countP p = l.countP p + if p a then 1 else 0 := by
  rw [listInsertAt, List.countP_append, List.countP_append]
  have h3 := congrArg (List.countP p) (List.take_append_drop n l)
  rw [List.countP_append] at h3
  simp only [List.countP_cons, List.countP_nil]
  omega

/-- Inserting a fresh-id block keeps the store invariant, provided a new
active single-instance block comes with the deactivation pass. -/
theorem insertNewBlock_storeInv (blocks : List BlockState) (nb : BlockState) (isS : Bool)
    (hinv : storeInv blocks)
    (hfresh : ∀ b ∈ blocks, b.id ≠ nb.id)
    (hsingle : (BLOCK_DEFINITIONS nb.type).singleActiveInstance = true →
      isS = true ∨ nb.isActive = false) :
    storeInv (insertNewBlock blocks nb isS) := by
  obtain ⟨hnd, hact⟩ := hinv
  constructor
  · simp only [insertNewBlock, List.map_append]
    have hids : ((if isS = true then blocks.map fun b =>
          if decide (b.type = nb.type) && b.isActive then { b with isActive := false } else b
        else blocks).map fun b => b.id) = blocks.map fun b => b.id := by
      split
      · exact map_id_deactivate nb.type blocks
      · rfl
    rw [hids, List.nodup_append]
    refine ⟨hnd, by simp, ?_⟩
    intro a ha hmem
    rcases List.mem_map.mp ha with ⟨b, hb, rfl⟩
    have hbid : b.id = nb.id := by simpa using hmem
    exact hfresh b hb hbid
  · intro t2 ht2
    simp only [insertNewBlock, List.countP_append]
    have hone : List.countP (activeOfType t2) [nb] = if activeOfType t2 nb then 1 else 0 := by
      simp [List.countP_cons]
    by_cases hiss : isS = true
    · rw [if_pos hiss, countP_deactivate, hone]
      by_cases htt : t2 = nb.type
      · simp [htt]
        split <;> omega
      · rw [if_neg htt]
        have hz : activeOfType t2 nb = false := by
          simp [activeOfType]
          intro h
          exact absurd h.symm htt
        rw [hz]
        simpa using hact t2 ht2
    · rw [if_neg hiss, hone]
      by_cases htt : t2 = nb.type
      · subst htt
        rcases hsingle ht2 with h | h
        · exact absurd h hiss
        · have hz : activeOfType nb.type nb = false := by simp [activeOfType, h]
          rw [hz]
          simpa using hact nb.type ht2
      · have hz : activeOfType t2 nb = false := by
          simp [activeOfType]
          intro h
          exact absurd h.symm htt
        rw [hz]
        simpa using hact t2 ht2

/-- addBlock keeps the store invariant when the minted id is fresh. -/
theorem addBlock_storeInv (blocks : List BlockState) (newId : String) (t : BlockType)
    (hinv : storeInv blocks) (hfresh : ∀ b ∈ blocks, b.id ≠ newId) :
    storeInv (addBlock blocks newId t) := by
  apply insertNewBlock_storeInv blocks _ _ hinv hfresh
  intro hs
  exact .inl hs

/-- duplicateBlock keeps the store invariant when the minted id is
fresh. -/
theorem duplicateBlock_storeInv (blocks : List BlockState) (src : BlockState) (newId : String)
    (hinv : storeInv blocks) (hfresh : ∀ b ∈ blocks, b.id ≠ newId) :
    storeInv (duplicateBlock blocks src newId) := by
  obtain ⟨hnd, hact⟩ := hinv
  constructor
  · simp only [duplicateBlock, listInsertAt, List.map_append, List.map_cons, List.map_nil]
    rw [show ∀ (l1 l2 : List String) (a : String), l1 ++ [a] ++ l2 = l1 ++ a :: l2 from
      fun l1 l2 a => by simp]
    rw [List.nodup_middle, List.nodup_cons]
    constructor
    · intro hmem
      rw [← List.map_append, List.take_append_drop] at hmem
      rcases List.mem_map.mp hmem with ⟨b, hb, hbid⟩
      exact hfresh b hb hbid
    · rw [← List.map_append, List.take_append_drop]
      exact hnd
  · intro t2 ht2
    obtain ⟨sid, sty, slab, sact, ssec, scv, sref⟩ := src
    simp only [duplicateBlock]
    rw [countP_listInsertAt]
    by_cases htt : sty = t2
    · subst htt
      have hz : (if activeOfType sty
          { id := newId, type := sty,
            customLabel := some ((BLOCK_DEFINITIONS sty).label ++ " " ++
              toString ((List.filter (fun b => decide (b.type = sty)) blocks).length + 1)),
            isActive := if (BLOCK_DEFINITIONS sty).singleActiveInstance = true then false
                        else sact,
            sections := ssec, customValues := scv, referenceImage := sref } = true
          then 1 else 0) = 0 := by
        simp [activeOfType, ht2]
      rw [hz]
      simpa using hact sty ht2
    · have hd : decide (sty = t2) = false := by simpa using htt
      have hz : (if activeOfType t2
          { id := newId, type := sty,
            customLabel := some ((BLOCK_DEFINITIONS sty).label ++ " " ++
              toString ((List.filter (fun b => decide (b.type = sty)) blocks).length + 1)),
            isActive := if (BLOCK_DEFINITIONS sty).singleActiveInstance = true then false
                        else sact,
            sections := ssec, customValues := scv, referenceImage := sref } = true
          then 1 else 0) = 0 := by
        simp [activeOfType, hd]
      rw [hz]
      simpa using hact t2 ht2

/-- A map that preserves the id field preserves the id projection. -/
theorem map_preserves_ids (f : BlockState → BlockState) (hf : ∀ b, (f b).id = b.id)
    (blocks : List BlockState) :
    ((blocks.map f).map fun b => b.id) = blocks.map fun b => b.id := by
  rw [List.map_map]
  exact List.map_congr_left fun b _ => hf b

/-- The local toggle keeps the store invariant for a member target. -/
theorem toggleLocalActive_storeInv (blocks : List BlockState) (target : BlockState)
    (hinv : storeInv blocks) (hmem : target ∈ blocks) :
    storeInv (toggleLocalActive blocks target) := by
  obtain ⟨hnd, hact⟩ := hinv
  have hg : ∀ b : BlockState,
      ((if b.id == target.id then { b with isActive := !target.isActive } else b) :
        BlockState).id = b.id := by
    intro b
    by_cases h : (b.id == target.id) = true <;> simp [h]
  have hh : ∀ b : BlockState,
      ((if decide (b.type = target.type) && b.id != target.id && b.isActive then
          { b with isActive := false } else b) : BlockState).id = b.id := by
    intro b
    by_cases h : (decide (b.type = target.type) && b.id != target.id && b.isActive) = true <;>
      simp [h]
  constructor
  · simp only [toggleLocalActive]
    rw [map_preserves_ids _ hg]
    by_cases hc :
        (!target.isActive && (BLOCK_DEFINITIONS target.type).singleActiveInstance) = true
    · rw [if_pos hc, map_preserves_ids _ hh]
      exact hnd
    · rw [if_neg hc]
      exact hnd
  · intro t2 ht2
    simp only [toggleLocalActive]
    by_cases hc :
        (!target.isActive && (BLOCK_DEFINITIONS target.type).singleActiveInstance) = true
    · rw [if_pos hc, List.countP_map, List.countP_map]
      by_cases htt : t2 = target.type
      · subst htt
        refine le_trans (List.countP_mono_left ?_) (countP_id_le_one blocks target.id hnd)
        intro z hz hPz
        simp only [Function.comp_apply] at hPz
        by_cases hid : (z.id == target.id) = true
        · exact hid
        · exfalso
          by_cases hza :
              (decide (z.type = target.type) && z.id != target.id && z.isActive) = true
          · rw [if_pos hza] at hPz
            rw [if_neg hid] at hPz
            simp [activeOfType] at hPz
          · rw [if_neg hza, if_neg hid] at hPz
            simp only [activeOfType, Bool.and_eq_true, decide_eq_true_eq] at hPz
            apply hza
            have hbne : (z.id != target.id) = true := by
              simp only [bne]
              simpa using hid
            simp [hPz.1, hPz.2, hbne]
      · refine (List.countP_congr ?_).trans_le (hact t2 ht2)
        intro z hz
        simp only [Function.comp_apply]
        have hne : target.type ≠ t2 := fun h => htt h.symm
        by_cases hza :
            (decide (z.type = target.type) && z.id != target.id && z.isActive) = true
        · rw [if_pos hza]
          have hzt : z.type = target.type := by
            simp only [Bool.and_eq_true, decide_eq_true_eq] at hza
            exact hza.1.1
          by_cases hgid : (z.id == target.id) = true
          · rw [if_pos hgid]
            simp [activeOfType, hzt, hne]
          · rw [if_neg hgid]
            simp [activeOfType, hzt, hne]
        · rw [if_neg hza]
          by_cases hid : (z.id == target.id) = true
          · have hzeq : z = target := eq_of_mem_of_id_eq hnd hmem hz (by simpa using hid)
            subst hzeq
            rw [if_pos hid]
            simp [activeOfType, hne]
          · rw [if_neg hid]
    · rw [if_neg hc, List.countP_map]
      by_cases hw : (!target.isActive) = true
      · have hsf : (BLOCK_DEFINITIONS target.type).singleActiveInstance = false := by
          cases hx : (BLOCK_DEFINITIONS target.type).singleActiveInstance
          · rfl
          · exact absurd (by simp [hw, hx]) hc
        have htt : t2 ≠ target.type := by
          intro h
          rw [h] at ht2
          exact Bool.false_ne_true (hsf ▸ ht2)
        have hne : target.type ≠ t2 := fun h => htt h.symm
        refine (List.countP_congr ?_).trans_le (hact t2 ht2)
        intro z hz
        simp only [Function.comp_apply]
        by_cases hid : (z.id == target.id) = true
        · have hzeq : z = target := eq_of_mem_of_id_eq hnd hmem hz (by simpa using hid)
          subst hzeq
          rw [if_pos hid]
          simp [activeOfType, hne]
        · rw [if_neg hid]
      · have hwf : (!target.isActive) = false := by simpa using hw
        refine le_trans (List.countP_mono_left ?_) (hact t2 ht2)
        intro z hz hPz
        simp only [Function.comp_apply] at hPz
        by_cases hid : (z.id == target.id) = true
        · rw [if_pos hid] at hPz
          simp only [activeOfType, hwf, Bool.and_false] at hPz
          exact absurd hPz Bool.false_ne_true
        · rw [if_neg hid] at hPz
          exact hPz

/-- One operation with a fresh minted id keeps the store invariant. -/
theorem applyOp_storeInv (blocks : List BlockState) (op : StoreOp)
    (hinv : storeInv blocks) (hfresh : opFresh blocks op) :
    storeInv (applyOp blocks op) := by
  cases op with
  | add newId t => exact addBlock_storeInv blocks newId t hinv hfresh
  | dup srcId newId =>
    simp only [applyOp]
    cases hf : blocks.find? fun b => b.id == srcId with
    | none => exact hinv
    | some src => exact duplicateBlock_storeInv blocks src newId hinv hfresh
  | toggle tid =>
    simp only [applyOp]
    cases hf : blocks.find? fun b => b.id == tid with
    | none => exact hinv
    | some b => exact toggleLocalActive_storeInv blocks b hinv (List.mem_of_find?_eq_some hf)

/-- A whole fresh sequence keeps the store invariant. -/
theorem applyOps_storeInv (blocks : List BlockState) (ops : List StoreOp)
    (hinv : storeInv blocks) (hfresh : opsFresh blocks ops) :
    storeInv (applyOps blocks ops) := by
  induction ops generalizing blocks with
  | nil => exact hinv
  | cons op rest ih =>
    exact ih (applyOp blocks op) (applyOp_storeInv blocks op hinv hfresh.1) hfresh.2

/-- Freshness restricts to a prefix of the sequence. -/
theorem opsFresh_append_left (blocks : List BlockState) (pre suf : List StoreOp)
    (h : opsFresh blocks (pre ++ suf)) : opsFresh blocks pre := by
  induction pre generalizing blocks with
  | nil => trivial
  | cons op rest ih => exact ⟨h.1, ih _ h.2⟩

/-- Adding a single-instance block deactivates every sibling: afterwards
only the freshly added block can be an active block of that type. -/
theorem addBlock_deactivates (blocks : List BlockState) (newId : String) (t : BlockType)
    (hs : (BLOCK_DEFINITIONS t).singleActiveInstance = true) :
    ∀ b ∈ addBlock blocks newId t, b.type = t → b.isActive = true → b.id = newId := by
  intro b hb hbt hba
  simp only [addBlock, insertNewBlock] at hb
  rw [if_pos hs] at hb
  rcases List.mem_append.mp hb with hb1 | hb2
  · exfalso
    rcases List.mem_map.mp hb1 with ⟨z, hz, rfl⟩
    by_cases hcz : (decide (z.type = t) && z.isActive) = true
    · rw [if_pos hcz] at hba
      simp at hba
    · rw [if_neg hcz] at hbt hba
      exact hcz (by simp [hbt, hba])
  · rw [List.mem_singleton.mp hb2]

/-- Turning a single-instance block on deactivates every sibling:
afterwards only the toggled block can be an active block of that type. -/
theorem toggle_on_deactivates (blocks : List BlockState) (target : BlockState)
    (hs : (BLOCK_DEFINITIONS target.type).singleActiveInstance = true)
    (hoff : target.isActive = false) :
    ∀ b ∈ toggleLocalActive blocks target, b.type = target.type → b.isActive = true →
      b.id = target.id := by
  intro b hb hbt hba
  simp only [toggleLocalActive] at hb
  have hcond : (!target.isActive &&
      (BLOCK_DEFINITIONS target.type).singleActiveInstance) = true := by
    simp [hoff, hs]
  rw [if_pos hcond] at hb
  rcases List.mem_map.mp hb with ⟨y, hy, rfl⟩
  rcases List.mem_map.mp hy with ⟨z, hz, rfl⟩
  by_cases hza : (decide (z.type = target.type) && z.id != target.id && z.isActive) = true
  · rw [if_pos hza] at hbt hba ⊢
    by_cases hgid : (({ z with isActive := false } : BlockState).id == target.id) = true
    · rw [if_pos hgid]
      simpa using hgid
    · rw [if_neg hgid] at hba
      simp at hba
  · rw [if_neg hza] at hbt hba ⊢
    by_cases hgid : (z.id == target.id) = true
    · rw [if_pos hgid]
      simpa using hgid
    · rw [if_neg hgid] at hbt hba ⊢
      have hb1 : (z.id == target.id) = false := by simpa using hgid
      exact absurd (by simp [hbt, hba, hb1, bne]) hza

/-- A duplicate of a single-instance block starts inactive: the block
carrying the fresh id in the result is inactive. -/
theorem duplicate_single_inactive (blocks : List BlockState) (src : BlockState) (newId : String)
    (hs : (BLOCK_DEFINITIONS src.type).singleActiveInstance = true)
    (hfresh : ∀ b ∈ blocks, b.id ≠ newId) :
    ∀ b ∈ duplicateBlock blocks src newId, b.id = newId → b.isActive = false := by
  intro b hb hid
  simp only [duplicateBlock, listInsertAt] at hb
  rcases List.mem_append.mp hb with hb1 | hb2
  · rcases List.mem_append.mp hb1 with hb3 | hb4
    · exact absurd hid (hfresh b (List.mem_of_mem_take hb3))
    · rw [List.mem_singleton.mp hb4]
      simp [hs]
  · exact absurd hid (hfresh b (List.mem_of_mem_drop hb2))

/-- An inactive lighting block used in concrete invariant scenarios. -/
def lightOff : BlockState := { freshBlock BlockType.lighting "L1" with isActive := false }

/-- An active lighting block used in concrete invariant scenarios. -/
def lightOn : BlockState := freshBlock BlockType.lighting "L1"

/-- The lighting block after toggling `lightOff` on. -/
def toggledLight : BlockState := { lightOff with isActive := true }

/-- The block `addBlock [] "L9" lighting` mints. -/
def addedLight : BlockState :=
  { id := "L9", type := BlockType.lighting,
    customLabel := some ((BLOCK_DEFINITIONS BlockType.lighting).label ++ " 1"),
    isActive := true, sections := defaultSections BlockType.lighting,
    customValues := [], referenceImage := none }

/-- The block `duplicateBlock [lightOn] lightOn "L9"` mints. -/
def dupLight : BlockState :=
  { lightOn with id := "L9",
                 customLabel := some ((BLOCK_DEFINITIONS BlockType.lighting).label ++ " 2"),
                 isActive := false }

/-- addGlobalBlock keeps the store invariant when the minted id is fresh:
the project-level add runs the same deactivation-then-push shape as the
editor's insert. -/
theorem addGlobalBlock_storeInv (globalBlocks : List BlockState) (newId : String)
    (t : BlockType) (hinv : storeInv globalBlocks)
    (hfresh : ∀ b ∈ globalBlocks, b.id ≠ newId) :
    storeInv (addGlobalBlock globalBlocks newId t) := by
  let hlbl : String :=
    if !(BLOCK_DEFINITIONS t).singleActiveInstance &&
        decide (0 < (globalBlocks.filter fun b => decide (b.type = t)).length) then
      (BLOCK_DEFINITIONS t).label ++ " " ++
        toString ((globalBlocks.filter fun b => decide (b.type = t)).length + 1)
    else (BLOCK_DEFINITIONS t).label
  exact insertNewBlock_storeInv globalBlocks
    { createDefaultBlockState t newId with customLabel := some hlbl }
    (BLOCK_DEFINITIONS t).singleActiveInstance hinv hfresh (fun hs => .inl hs)

/-- The first added global Background, deactivated by the second add. -/
def gG1off : BlockState :=
  { createDefaultBlockState BlockType.background "G1" with isActive := false }

/-- The globals scope after adding two global Background blocks. -/
def gGlobals2 : List BlockState :=
  addGlobalBlock (addGlobalBlock [] "G1" BlockType.background) "G2" BlockType.background

/-- C2 counterexample: the single-active-instance invariant fails in the
globals scope.  Adding two global Background blocks leaves `[G1 off,
G2 on]` — one active block of the single-instance Background type — but
toggling `G1` back on goes through the editor toggle's global branch, a
plain replace that deactivates no sibling, and the scope ends with two
active Background blocks. -/
theorem global_toggle_counterexample :
    (BLOCK_DEFINITIONS BlockType.background).singleActiveInstance = true
    ∧ gG1off ∈ gGlobals2
    ∧ gGlobals2.countP (activeOfType BlockType.background) = 1
    ∧ (toggleBlockActive [] gGlobals2 gG1off).2.countP (activeOfType BlockType.background)
        = 2 := by
  exact ⟨rfl, by decide, by decide, by decide⟩

/-- C2 (amended): the single-active-instance invariant is enforced only on
the LOCAL scope's operations: for every sequence of local
add/duplicate/toggle operations with fresh minted ids over an
invariant-satisfying local list, at most one block of any
`singleActiveInstance` type is active at every observation point (after
every prefix); a local add or toggle-on leaves all same-type siblings
inactive, and a duplicate of a single-instance block starts inactive.
In the globals scope, `addGlobalBlock` also preserves the invariant, but
the editor toggle routes a global target through `updateGlobalBlock` — a
plain by-id replace that flips the target and deactivates no sibling — so
the globals scope can reach two active blocks of a single-instance type
(the counterexample). -/
theorem single_active_instance_amended :
    (∀ (blocks : List BlockState) (ops pre suf : List StoreOp),
        storeInv blocks → opsFresh blocks ops → ops = pre ++ suf →
        ∀ t, (BLOCK_DEFINITIONS t).singleActiveInstance = true →
          (applyOps blocks pre).countP (activeOfType t) ≤ 1) ∧
    (∀ (blocks : List BlockState) (newId : String) (t : BlockType),
        (BLOCK_DEFINITIONS t).singleActiveInstance = true →
        ∀ b ∈ addBlock blocks newId t, b.type = t → b.isActive = true → b.id = newId) ∧
    (∀ (blocks : List BlockState) (target : BlockState),
        (BLOCK_DEFINITIONS target.type).singleActiveInstance = true →
        target.isActive = false →
        ∀ b ∈ toggleLocalActive blocks target, b.type = target.type → b.isActive = true →
          b.id = target.id) ∧
    (∀ (blocks : List BlockState) (src : BlockState) (newId : String),
        (BLOCK_DEFINITIONS src.type).singleActiveInstance = true →
        (∀ b ∈ blocks, b.id ≠ newId) →
        ∀ b ∈ duplicateBlock blocks src newId, b.id = newId → b.isActive = false) ∧
    (∀ (globalBlocks : List BlockState) (newId : String) (t : BlockType),
        storeInv globalBlocks → (∀ b ∈ globalBlocks, b.id ≠ newId) →
        storeInv (addGlobalBlock globalBlocks newId t)) ∧
    (∀ (blocks globalBlocks : List BlockState) (target : BlockState),
        (globalBlocks.any fun gb => gb.id == target.id) = true →
        toggleBlockActive blocks globalBlocks target =
          (blocks,
           updateGlobalBlock globalBlocks { target with isActive := !target.isActive })) ∧
    (∀ (globalBlocks : List BlockState) (u b : BlockState),
        b ∈ globalBlocks → b.id ≠ u.id → b ∈ updateGlobalBlock globalBlocks u) ∧
    (∀ (blocks globalBlocks : List BlockState) (target : BlockState),
        (globalBlocks.any fun gb => gb.id == target.id) = false →
        toggleBlockActive blocks globalBlocks target =
          (toggleLocalActive blocks target, globalBlocks)) := by
  refine ⟨?_, addBlock_deactivates, toggle_on_deactivates, duplicate_single_inactive,
    addGlobalBlock_storeInv, ?_, ?_, ?_⟩
  · intro blocks ops pre suf hinv hfresh hsplit t ht
    subst hsplit
    exact (applyOps_storeInv blocks pre hinv (opsFresh_append_left blocks pre suf hfresh)).2 t ht
  · intro blocks globalBlocks target h
    simp only [toggleBlockActive]
    rw [if_pos h]
  · intro globalBlocks u b hb hne
    simp only [updateGlobalBlock]
    refine List.mem_map.mpr ⟨b, hb, ?_⟩
    have hbeq : (b.id == u.id) = false := by simpa using hne
    simp [hbeq]
  · intro blocks globalBlocks target h
    simp only [toggleBlockActive]
    rw [if_neg (by simp [h])]

/-- Concrete run of the amended single-active-instance theorem: at most
one active lighting block after a local add, the added block owns the
fresh id, toggling on keeps the target id, the duplicate starts inactive,
and the global toggle on `G1` is the plain replace. -/
theorem single_active_instance_amended_witness :
    ((applyOps [] [StoreOp.add "L1" BlockType.lighting]).countP
        (activeOfType BlockType.lighting) ≤ 1) ∧
    addedLight.id = "L9" ∧ toggledLight.id = "L1" ∧ dupLight.isActive = false ∧
    toggleBlockActive [] gGlobals2 gG1off =
      ([], updateGlobalBlock gGlobals2 { gG1off with isActive := !gG1off.isActive }) := by
  refine ⟨?_, ?_, ?_, ?_, ?_⟩
  · exact single_active_instance_amended.1 []
      [StoreOp.add "L1" BlockType.lighting, StoreOp.add "L2" BlockType.lighting]
      [StoreOp.add "L1" BlockType.lighting] [StoreOp.add "L2" BlockType.lighting]
      ⟨by simp, fun t _ => by rw [List.countP_nil]; exact Nat.zero_le 1⟩
      ⟨by simp only [opsFresh, opFresh]; decide, by simp only [opsFresh, opFresh]; decide,
        trivial⟩ rfl
      BlockType.lighting (by decide)
  · exact single_active_instance_amended.2.1 [] "L9" BlockType.lighting (by decide) addedLight
      (by decide) (by decide) (by decide)
  · exact single_active_instance_amended.2.2.1 [lightOff] lightOff (by decide) (by decide)
      toggledLight (by decide) (by decide) (by decide)
  · exact single_active_instance_amended.2.2.2.1 [lightOn] lightOn "L9" (by decide)
      (by decide) dupLight (by decide) (by decide)
  · exact single_active_instance_amended.2.2.2.2.2.1 [] gGlobals2 gG1off (by decide)

/-- An opaque grey pixel for the grain witnesses. -/
def gpx : Pixel := ⟨100, 100, 100, 255⟩

/-- A fully transparent grey pixel for the grain witnesses. -/
def gpa : Pixel := ⟨100, 100, 100, 0⟩

/-- Concrete run of the amended grain model: identity at grain 0, a
transparent pixel untouched, and an opaque pixel shifted by the one shared
noise sample on all three channels. -/
theorem grain_stage_amended_witness :
    grainStage 0 constNoise [gpx] = [gpx] ∧
    (grainStage 100 constNoise [gpa])[0]? = some ([gpa].get ⟨0, by decide⟩) ∧
    (grainStage 100 constNoise [gpx])[0]? = some
      { [gpx].get ⟨0, by decide⟩ with
        r := clampByte (([gpx].get ⟨0, by decide⟩).r +
          (constNoise 0 - 1/2) * (100 / 100 * 255 * (1/5))),
        g := clampByte (([gpx].get ⟨0, by decide⟩).g +
          (constNoise 0 - 1/2) * (100 / 100 * 255 * (1/5))),
        b := clampByte (([gpx].get ⟨0, by decide⟩).b +
          (constNoise 0 - 1/2) * (100 / 100 * 255 * (1/5))) } := by
  refine ⟨(grain_stage_amended 0 constNoise [gpx]).1 rfl, ?_, ?_⟩
  · exact ((grain_stage_amended 100 constNoise [gpa]).2.2 0 (by decide)).1 (by norm_num) rfl
  · exact ((grain_stage_amended 100 constNoise [gpx]).2.2 0 (by decide)).2 (by norm_num)
      (by decide)

/-- Concrete run of the import-forces-active theorem: the block imported
from `rawBackground` is active. -/
theorem import_forces_active_witness : importedBg.isActive = true :=
  import_forces_active.1 0 [rawBackground] importedBg (by decide)

end StarryGen
